import Mathlib

/-!
Shallow embedding of
`onnxruntime/python/tools/quantization/execution_providers/qnn/quant_config.py`
(the QNN quantization-override resolver) and proofs about the claims on it.

Python dicts keyed by tensor name are modelled as association lists with
insertion-order semantics (`alookup` / `aset`: update in place, append new
keys at the end).  Python `set`s of node names are modelled as `Finset String`.
Raised exceptions are modelled by `Except QErr`; each `QErr` constructor
corresponds to one raise site of the source, and `QErr.message` reproduces the
exact message string the source builds there.
-/

deriving instance DecidableEq for Except

/-- The `QuantType` values used by the source (an opaque closed enumeration). -/
inductive QuantType
  | QInt8
  | QUInt8
  | QInt16
  | QUInt16
deriving DecidableEq

/-- Set `Q16_TYPES = {QuantType.QInt16, QuantType.QUInt16}` (line 19). -/
def Q16_TYPES : List QuantType := [QuantType.QInt16, QuantType.QUInt16]

/-- Set `Q8_TYPES = {QuantType.QInt8, QuantType.QUInt8}` (line 20). -/
def Q8_TYPES : List QuantType := [QuantType.QInt8, QuantType.QUInt8]

/-- The `convert` sub-record of an override entry:
`{"quant_type": ..., "recv_nodes": ...}` where `recv_nodes` is an optional
set of consuming-node names. -/
structure ConvertRec where
  quant_type : QuantType
  recv_nodes : Option (Finset String)
deriving DecidableEq

/-- One override record (one element of an override-list value of the
`tensor_quant_overrides` dict).  Each optional field models presence of the
corresponding dict key.  Scales and ranges are stored rationals (the source
only ever stores, never computes with, these values; the stored constants
1/65536 and 1/32768 are exactly representable). -/
structure TensorOverride where
  quant_type : Option QuantType := none
  symmetric : Option Bool := none
  scale : Option ℚ := none
  zero_point : Option ℤ := none
  reduce_range : Option Bool := none
  rmin : Option ℚ := none
  rmax : Option ℚ := none
  convert : Option ConvertRec := none
deriving DecidableEq

/-- A graph initializer as the source reads it: only `data_type` is used. -/
structure InitRec where
  data_type : Nat
deriving DecidableEq

/-- Value-info metadata as the source reads it: whether `type` has the field
`tensor_type`, and its `elem_type`. -/
structure ValueInfo where
  has_tensor_type : Bool
  elem_type : Nat
deriving DecidableEq

/-- A graph node: op kind, unique name, ordered input and output tensor
names (entries may be the empty string). -/
structure Node where
  name : String
  op_type : String
  input : List String
  output : List String
deriving DecidableEq

/-- Constant `onnx.TensorProto.FLOAT`. -/
def ONNX_FLOAT : Nat := 1

/-- Association-list lookup, modelling Python `d[k]` / `k in d`. -/
def alookup {β : Type} (k : String) : List (String × β) → Option β
  | [] => none
  | p :: rest => if p.1 = k then some p.2 else alookup k rest

/-- Association-list update, modelling Python `d[k] = v`: replace in place
when the key exists, append at the end otherwise (dict insertion order). -/
def aset {β : Type} (k : String) (v : β) : List (String × β) → List (String × β)
  | [] => [(k, v)]
  | p :: rest => if p.1 = k then (k, v) :: rest else p :: aset k v rest

/-- The keys of an association list, in order. -/
def akeys {β : Type} (l : List (String × β)) : List String := l.map Prod.fst

/-- The mutable override table `tensor_quant_overrides`:
tensor name → list of override records. -/
abbrev OverrideTable := List (String × List TensorOverride)

/-- Errors; each constructor corresponds to one raise site of the source.
`convertConflict` models the `ValueError` of lines 210-212 whose message is a
plain (non-f) string literal. -/
inductive QErr
  | multipleTypes (tensor_name : String)
  | consumerConflict (tensor_name : String)
  | convertConflict
  | notSupported
  | perChannelNotSupported
  | assertConvertMismatch
  | assertUnexpectedQuantType
  | assertStrayConvert
  | assertEmptyOutputName
  | assertDuplicateProducer
  | keyError (k : String)
  | indexError
deriving DecidableEq

/-- The exact message string each raise site of the source produces.  Note
that `convertConflict` (lines 210-212) is a plain string literal in the
source (the `f` prefix is missing), so its message contains the literal
characters `{tensor_name}` rather than the tensor's name. -/
def QErr.message : QErr → String
  | .multipleTypes t => "Tensor " ++ t ++ " has multiple types."
  | .consumerConflict t => "Tensor " ++ t ++ " has consumers requesting different types."
  | .convertConflict =>
      "Tensor override for '\x7btensor_name\x7d' converts the type for consumers that need the original type."
  | .notSupported => "Do not yet support per-tensor quantization"
  | .perChannelNotSupported => "QNN EP does not yet support per-channel quantization."
  | .assertConvertMismatch => "Consumer type doesn't match convert type"
  | .assertUnexpectedQuantType => "Unexpected quant_type when overridding zp/scale"
  | .assertStrayConvert => "assert failed: convert not in tensor_quant_overrides[tensor_name][0]"
  | .assertEmptyOutputName => "Node output name cannot be empty"
  | .assertDuplicateProducer => "Tensor can only be generated by a single node"
  | .keyError k => "KeyError: " ++ k
  | .indexError => "list index out of range"

/-- Function `_is_tensor_quantizable` (lines 24-34). -/
def isTensorQuantizable (tensor_name : String) (value_infos : List (String × ValueInfo))
    (inits : List (String × InitRec)) : Bool :=
  match alookup tensor_name inits with
  | some w => w.data_type == ONNX_FLOAT
  | none =>
    match alookup tensor_name value_infos with
    | some vi => vi.has_tensor_type && (vi.elem_type == ONNX_FLOAT)
    | none => false

/-- Python `tensor_name in name_to_weights_map` membership test. -/
def isInit (tensor_name : String) (inits : List (String × InitRec)) : Bool :=
  (alookup tensor_name inits).isSome

/-- Function `_get_output_activation_qtype` (lines 37-45): raise `ValueError` for a
multi-record entry, `IndexError` for an empty list, otherwise the entry's
`quant_type` (defaulting to the activation type). -/
def getOutputActivationQtype (tensor_name : String) (tbl : OverrideTable)
    (activation_type : QuantType) : Except QErr QuantType :=
  match alookup tensor_name tbl with
  | none => Except.ok activation_type
  | some [] => Except.error QErr.indexError
  | some [ov] => Except.ok (ov.quant_type.getD activation_type)
  | some _ => Except.error QErr.notSupported

/-- Function `_set_weight_type` (lines 48-60): create the entry if missing or empty;
reject multi-record entries; only write `quant_type`/`symmetric` when the
user set neither. -/
def setWeightType (tbl : OverrideTable) (tensor_name : String) (weight_type : QuantType)
    (weight_symmetric : Bool) : Except QErr OverrideTable :=
  match alookup tensor_name tbl with
  | none =>
      Except.ok (aset tensor_name
        [{ quant_type := some weight_type, symmetric := some weight_symmetric }] tbl)
  | some [] =>
      Except.ok (aset tensor_name
        [{ quant_type := some weight_type, symmetric := some weight_symmetric }] tbl)
  | some [ov] =>
      if ov.quant_type = none ∧ ov.symmetric = none then
        Except.ok (aset tensor_name
          [{ ov with quant_type := some weight_type, symmetric := some weight_symmetric }] tbl)
      else
        Except.ok tbl
  | some _ => Except.error QErr.notSupported

/-- The presence test of line 77: does the entry carry any of
`scale`, `zero_point`, `symmetric`, `reduce_range`, `rmin`, `rmax`? -/
def hasUserRangeFields (ov : TensorOverride) : Bool :=
  ov.scale.isSome || ov.zero_point.isSome || ov.symmetric.isSome ||
    ov.reduce_range.isSome || ov.rmin.isSome || ov.rmax.isSome

/-- Tail of `_set_scale_zero_point` (lines 75-83) applied to the record
`ov1` that already received the `quant_type` write of lines 72-73: assert
the type matches (line 75), then either warn-and-skip (lines 77-80) or
write `zero_point` and `scale` (lines 82-83); in both branches the record
of lines 72-73 is what remains stored. -/
def setScaleZeroPointAssign (tbl : OverrideTable) (tensor_name : String)
    (quant_type : QuantType) (scale : ℚ) (zero_point : ℤ) (ov1 : TensorOverride) :
    Except QErr OverrideTable :=
  if ov1.quant_type ≠ some quant_type then Except.error QErr.assertUnexpectedQuantType
  else if hasUserRangeFields ov1 then
    Except.ok (aset tensor_name [ov1] tbl)
  else
    Except.ok (aset tensor_name
      [{ ov1 with zero_point := some zero_point, scale := some scale }] tbl)

/-- Body of `_set_scale_zero_point` after the entry has been fetched or
created: set `quant_type` if absent (lines 72-73), then run lines 75-83. -/
def setScaleZeroPointCore (tbl : OverrideTable) (tensor_name : String)
    (quant_type : QuantType) (scale : ℚ) (zero_point : ℤ) (ov : TensorOverride) :
    Except QErr OverrideTable :=
  setScaleZeroPointAssign tbl tensor_name quant_type scale zero_point
    (if ov.quant_type = none then { ov with quant_type := some quant_type } else ov)

/-- Function `_set_scale_zero_point` (lines 63-83). -/
def setScaleZeroPoint (tbl : OverrideTable) (tensor_name : String) (quant_type : QuantType)
    (scale : ℚ) (zero_point : ℤ) : Except QErr OverrideTable :=
  match alookup tensor_name tbl with
  | none => setScaleZeroPointCore tbl tensor_name quant_type scale zero_point {}
  | some [] => setScaleZeroPointCore tbl tensor_name quant_type scale zero_point {}
  | some [ov] => setScaleZeroPointCore tbl tensor_name quant_type scale zero_point ov
  | some _ => Except.error QErr.notSupported

/-- Tail of `_add_to_convert_recv_nodes` (lines 96-101) applied to the
`convert` sub-record `cv` (either the pre-existing one or the fresh
`{"quant_type": consumer_type}` of lines 92-93): assert its type matches
`consumer_type`, then union `consumer_names` into `recv_nodes` (creating
the set when absent, lines 98-101). -/
def addToConvertRecvNodesAssign (tbl : OverrideTable) (tensor_name : String)
    (consumer_type : QuantType) (consumer_names : Finset String)
    (ov : TensorOverride) (rest : List TensorOverride) (cv : ConvertRec) :
    Except QErr OverrideTable :=
  if cv.quant_type ≠ consumer_type then Except.error QErr.assertConvertMismatch
  else
    Except.ok (aset tensor_name
      ({ ov with convert := some ⟨cv.quant_type, some ((cv.recv_nodes.getD ∅) ∪ consumer_names)⟩ }
        :: rest) tbl)

/-- Body of `_add_to_convert_recv_nodes` after the head record `ov` and the
tail `rest` of the entry's list have been fetched (lines 90-101): create the
`convert` sub-record if absent (lines 92-93), then run lines 96-101. -/
def addToConvertRecvNodesCore (tbl : OverrideTable) (tensor_name : String)
    (consumer_type : QuantType) (consumer_names : Finset String)
    (ov : TensorOverride) (rest : List TensorOverride) : Except QErr OverrideTable :=
  addToConvertRecvNodesAssign tbl tensor_name consumer_type consumer_names ov rest
    (match ov.convert with
     | none => ConvertRec.mk consumer_type none
     | some c => c)

/-- Function `_add_to_convert_recv_nodes` (lines 86-101): create the entry as
`[{"quant_type": prod_type}]` if missing or empty (lines 87-88), then work on
record `[0]` leaving any tail untouched. -/
def addToConvertRecvNodes (tbl : OverrideTable) (tensor_name : String)
    (prod_type consumer_type : QuantType) (consumer_names : Finset String) :
    Except QErr OverrideTable :=
  match alookup tensor_name tbl with
  | none =>
      addToConvertRecvNodesCore tbl tensor_name consumer_type consumer_names
        { quant_type := some prod_type } []
  | some [] =>
      addToConvertRecvNodesCore tbl tensor_name consumer_type consumer_names
        { quant_type := some prod_type } []
  | some (ov :: rest) =>
      addToConvertRecvNodesCore tbl tensor_name consumer_type consumer_names ov rest

/-- Function `_check_not_in_convert_recv_nodes` (lines 104-118). -/
def checkNotInConvertRecvNodes (tbl : OverrideTable) (tensor_name : String)
    (consumer_names : Finset String) : Bool :=
  match alookup tensor_name tbl with
  | none => true
  | some [] => true
  | some (ov :: _) =>
    match ov.convert with
    | none => true
    | some cv =>
      match cv.recv_nodes with
      | none => true
      | some recv => recv ∩ consumer_names = ∅

/-- Function `_get_input_activation_qtype` (lines 121-137): the effective type the
consuming node `node_name` sees for `input_name`.  (Note: no multi-record
check here; the source silently reads record `[0]`.) -/
def getInputActivationQtype (tbl : OverrideTable) (input_name node_name : String)
    (activation_type : QuantType) : QuantType :=
  match alookup input_name tbl with
  | none => activation_type
  | some [] => activation_type
  | some (ov :: _) =>
    let producer_type := ov.quant_type.getD activation_type
    match ov.convert with
    | none => producer_type
    | some cv =>
      match cv.recv_nodes with
      | none => cv.quant_type
      | some recv => if node_name ∈ recv then cv.quant_type else producer_type

/-- The transient `TensorTypeRequest` dataclass (lines 140-143). -/
structure TensorTypeRequest where
  producer_type : Option QuantType
  consumers : Option (QuantType × Finset String)
deriving DecidableEq

/-- The transient `type_requests` dict of `_add_qtype_converts`. -/
abbrev ReqMap := List (String × TensorTypeRequest)

/-- The exact rational value of `np.array(1.0 / 65536.0, dtype=np.float32)`
(1/65536 is exactly representable in float32), written as a reduced fraction
so that kernel evaluation never has to normalize. -/
def rat_1_65536 : ℚ := Rat.mk' 1 65536 (by decide) (Nat.coprime_one_left 65536)

/-- The exact rational value of `np.array(1.0 / 32768.0, dtype=np.float32)`. -/
def rat_1_32768 : ℚ := Rat.mk' 1 32768 (by decide) (Nat.coprime_one_left 32768)

/-- Consumer-side request recording for a single qualifying input
(lines 183-192): ensure the request exists, ensure `consumers` is set,
raise on a type mismatch, then add the consuming node's name. -/
def recordConsumerRequest (quant_type : QuantType) (node_name : String)
    (st : ReqMap) (input_name : String) : Except QErr ReqMap :=
  match alookup input_name st with
  | none =>
      Except.ok (aset input_name ⟨none, some (quant_type, {node_name})⟩ st)
  | some req =>
    match req.consumers with
    | none =>
        Except.ok (aset input_name { req with consumers := some (quant_type, {node_name}) } st)
    | some (ct, names) =>
        if ct ≠ quant_type then Except.error (QErr.consumerConflict input_name)
        else
          Except.ok (aset input_name { req with consumers := some (ct, insert node_name names) } st)

/-- The consumer-side loop of lines 177-192 over the producing node's
inputs; only non-empty, non-initializer, quantizable inputs are recorded. -/
def recordConsumerRequests (quant_type : QuantType) (node_name : String)
    (value_infos : List (String × ValueInfo)) (inits : List (String × InitRec)) :
    ReqMap → List String → Except QErr ReqMap
  | st, [] => Except.ok st
  | st, input_name :: rest =>
    if input_name ≠ "" ∧ isInit input_name inits = false ∧
        isTensorQuantizable input_name value_infos inits = true then
      match recordConsumerRequest quant_type node_name st input_name with
      | Except.error e => Except.error e
      | Except.ok st1 => recordConsumerRequests quant_type node_name value_infos inits st1 rest
    else recordConsumerRequests quant_type node_name value_infos inits st rest

/-- Producer-side request recording (lines 167-174). -/
def recordProducerRequest (quant_type : QuantType) (tensor_name : String)
    (st : ReqMap) : Except QErr ReqMap :=
  match alookup tensor_name st with
  | none => Except.ok (aset tensor_name ⟨some quant_type, none⟩ st)
  | some req =>
    if req.producer_type ≠ none then Except.error (QErr.multipleTypes tensor_name)
    else Except.ok (aset tensor_name { req with producer_type := some quant_type } st)

/-- One iteration of the scan loop of `_add_qtype_converts` (lines 152-192)
for the entry `(tensor_name, override_list)`: skip non-quantizable tensors,
initializers and zero/multi-record entries; look up the producing node
(a missing producer is a `KeyError`, line 164); if the overridden type
differs from the activation type and no `convert` exists, record the
producer-side and consumer-side requests. -/
def collectStep (activation_type : QuantType) (value_infos : List (String × ValueInfo))
    (inits : List (String × InitRec)) (producers : List (String × Node))
    (st : ReqMap) (tensor_name : String) (override_list : List TensorOverride) :
    Except QErr ReqMap :=
  if isTensorQuantizable tensor_name value_infos inits = false then Except.ok st
  else if isInit tensor_name inits = true then Except.ok st
  else
    match override_list with
    | [override] =>
      -- `quant_type = override.get("quant_type", activation_type)` (line 163)
      match alookup tensor_name producers with
      | none => Except.error (QErr.keyError tensor_name)
      | some node =>
        if override.quant_type.getD activation_type ≠ activation_type ∧
            override.convert = none then
          match recordProducerRequest (override.quant_type.getD activation_type)
              tensor_name st with
          | Except.error e => Except.error e
          | Except.ok st1 =>
              recordConsumerRequests (override.quant_type.getD activation_type)
                node.name value_infos inits st1 node.input
        else Except.ok st
    | _ => Except.ok st

/-- The full scan loop of `_add_qtype_converts` (lines 151-192) over the
override table's entries in order, threading the `type_requests` dict. -/
def collectTypeRequests (activation_type : QuantType) (value_infos : List (String × ValueInfo))
    (inits : List (String × InitRec)) (producers : List (String × Node)) :
    ReqMap → OverrideTable → Except QErr ReqMap
  | st, [] => Except.ok st
  | st, (tensor_name, override_list) :: rest =>
    match collectStep activation_type value_infos inits producers st tensor_name override_list with
    | Except.error e => Except.error e
    | Except.ok st1 => collectTypeRequests activation_type value_infos inits producers st1 rest

/-- One iteration of the processing loop of `_add_qtype_converts`
(lines 195-233) for `(tensor_name, type_req)`. -/
def processStep (activation_type : QuantType) (consumers : List (String × List Node))
    (tbl : OverrideTable) (tensor_name : String) (type_req : TensorTypeRequest) :
    Except QErr OverrideTable :=
  match type_req.producer_type, type_req.consumers with
  | some _, none =>
      -- Only producer type (lines 197-198): write `convert` back to the
      -- activation type onto record [0] of the tensor's entry.
      match alookup tensor_name tbl with
      | none => Except.error (QErr.keyError tensor_name)
      | some [] => Except.error QErr.indexError
      | some (ov :: rest) =>
          Except.ok (aset tensor_name
            ({ ov with convert := some ⟨activation_type, none⟩ } :: rest) tbl)
  | none, none => Except.error (QErr.keyError tensor_name)
  | none, some (consumer_type, names) =>
      -- Only consumers (lines 200-212).
      match getOutputActivationQtype tensor_name tbl activation_type with
      | Except.error e => Except.error e
      | Except.ok prod_type =>
        if prod_type ≠ consumer_type then
          addToConvertRecvNodes tbl tensor_name prod_type consumer_type names
        else if checkNotInConvertRecvNodes tbl tensor_name names = false then
          Except.error QErr.convertConflict
        else Except.ok tbl
  | some prod_type, some (consumer_type, names) =>
      -- Both producer and consumers (lines 214-233).
      if prod_type ≠ consumer_type then
        addToConvertRecvNodes tbl tensor_name prod_type consumer_type names
      else
        match alookup tensor_name consumers with
        | none => Except.error (QErr.keyError tensor_name)
        | some consumer_nodes =>
          -- `all_consumers` is `(consumer_nodes.map Node.name).toFinset` and
          -- `consumers_for_original_type` is its difference with `names`.
          if (consumer_nodes.map Node.name).toFinset \ names = ∅ then
            match alookup tensor_name tbl with
            | none => Except.error (QErr.keyError tensor_name)
            | some [] => Except.error QErr.indexError
            | some (ov :: _) =>
                if ov.convert ≠ none then Except.error QErr.assertStrayConvert
                else Except.ok tbl
          else
            addToConvertRecvNodes tbl tensor_name prod_type activation_type
              ((consumer_nodes.map Node.name).toFinset \ names)

/-- The processing loop of `_add_qtype_converts` (lines 195-233) over the
collected requests in order, mutating the override table. -/
def processTypeRequests (activation_type : QuantType) (consumers : List (String × List Node)) :
    OverrideTable → ReqMap → Except QErr OverrideTable
  | tbl, [] => Except.ok tbl
  | tbl, (tensor_name, type_req) :: rest =>
    match processStep activation_type consumers tbl tensor_name type_req with
    | Except.error e => Except.error e
    | Except.ok tbl1 => processTypeRequests activation_type consumers tbl1 rest

/-- Function `_add_qtype_converts` (lines 146-233): collect the type requests from
the override table, then process them. -/
def addQtypeConverts (tbl : OverrideTable) (activation_type : QuantType)
    (value_infos : List (String × ValueInfo)) (inits : List (String × InitRec))
    (producers : List (String × Node)) (consumers : List (String × List Node)) :
    Except QErr OverrideTable :=
  match collectTypeRequests activation_type value_infos inits producers [] tbl with
  | Except.error e => Except.error e
  | Except.ok reqs => processTypeRequests activation_type consumers tbl reqs

/-- The `MatMul` input scan of lines 287-296: thread the pair
`(input_16bit_act, input_wgt)` over the inputs (later hits win, matching the
Python loop's reassignment). -/
def matMulScanInputs (inits : List (String × InitRec)) (activation_type : QuantType)
    (tbl : OverrideTable) (node_name : String) (inputs : List String) :
    Option String × Option String :=
  inputs.foldl
    (fun p input_name =>
      if isInit input_name inits = false then
        if getInputActivationQtype tbl input_name node_name activation_type ∈ Q16_TYPES then
          (some input_name, p.2)
        else p
      else (p.1, some input_name))
    (none, none)

/-- Python truthiness of the optional strings at line 299
(`if input_16bit_act and input_wgt`): `None` and `""` are falsy. -/
def truthyStr : Option String → Bool
  | none => false
  | some s => s ≠ ""

/-- The `LayerNormalization` activation scan of lines 304-310: is any
non-initializer input effectively a 16-bit type? -/
def lnHasQ16Activation (inits : List (String × InitRec)) (activation_type : QuantType)
    (tbl : OverrideTable) (node : Node) : Bool :=
  node.input.any fun input_name =>
    !(isInit input_name inits) &&
      decide (getInputActivationQtype tbl input_name node.name activation_type ∈ Q16_TYPES)

/-- The `range(2)` promotion loop of lines 314-317 for `LayerNormalization`:
`node.input[i]` for `i = 0, 1` (an out-of-range index is an `IndexError`);
initializer inputs are promoted with `_set_weight_type`. -/
def lnPromoteFirstTwo (inits : List (String × InitRec)) (weight_type : QuantType)
    (weight_symmetric : Bool) (tbl : OverrideTable) (node : Node) :
    Except QErr OverrideTable :=
  match node.input[0]? with
  | none => Except.error QErr.indexError
  | some in0 =>
    match (if isInit in0 inits = true then setWeightType tbl in0 weight_type weight_symmetric
           else Except.ok tbl) with
    | Except.error e => Except.error e
    | Except.ok tbl1 =>
      match node.input[1]? with
      | none => Except.error QErr.indexError
      | some in1 =>
        if isInit in1 inits = true then setWeightType tbl1 in1 weight_type weight_symmetric
        else Except.ok tbl1

/-- One iteration of the per-node policy loop of `get_qnn_qdq_config`
(lines 283-355): `MatMul` and `LayerNormalization` weight promotion, and
`Sigmoid`/`Tanh` scale/zero-point pinning. -/
def applyNodePolicy (inits : List (String × InitRec)) (activation_type weight_type : QuantType)
    (tbl : OverrideTable) (node : Node) : Except QErr OverrideTable :=
  if node.op_type = "MatMul" ∧ weight_type ∈ Q8_TYPES then
    -- `weight_symmetric = (weight_type == QInt8)` (line 285); `p` bundles
    -- the locals `(input_16bit_act, input_wgt)` of the input scan.
    if truthyStr (matMulScanInputs inits activation_type tbl node.name node.input).1 = true ∧
        truthyStr (matMulScanInputs inits activation_type tbl node.name node.input).2 = true then
      setWeightType tbl
        ((matMulScanInputs inits activation_type tbl node.name node.input).2.getD "")
        weight_type (decide (weight_type = QuantType.QInt8))
    else Except.ok tbl
  else if node.op_type = "LayerNormalization" ∧ weight_type ∈ Q8_TYPES then
    if lnHasQ16Activation inits activation_type tbl node = true then
      lnPromoteFirstTwo inits weight_type (decide (weight_type = QuantType.QInt8)) tbl node
    else Except.ok tbl
  else if node.op_type = "Sigmoid" then
    match node.output[0]? with
    | none => Except.error QErr.indexError
    | some out =>
      match getOutputActivationQtype out tbl activation_type with
      | Except.error e => Except.error e
      | Except.ok output_type =>
        if output_type = QuantType.QUInt16 then
          setScaleZeroPoint tbl out output_type rat_1_65536 0
        else if output_type = QuantType.QInt16 then
          setScaleZeroPoint tbl out output_type rat_1_32768 0
        else Except.ok tbl
  else if node.op_type = "Tanh" then
    match node.output[0]? with
    | none => Except.error QErr.indexError
    | some out =>
      match getOutputActivationQtype out tbl activation_type with
      | Except.error e => Except.error e
      | Except.ok output_type =>
        if output_type = QuantType.QUInt16 then
          setScaleZeroPoint tbl out output_type rat_1_32768 32768
        else if output_type = QuantType.QInt16 then
          setScaleZeroPoint tbl out output_type rat_1_32768 0
        else Except.ok tbl
  else Except.ok tbl

/-- The per-node policy loop of lines 283-355 over the graph's node list. -/
def applyNodePolicies (inits : List (String × InitRec)) (activation_type weight_type : QuantType) :
    OverrideTable → List Node → Except QErr OverrideTable
  | tbl, [] => Except.ok tbl
  | tbl, node :: rest =>
    match applyNodePolicy inits activation_type weight_type tbl node with
    | Except.error e => Except.error e
    | Except.ok tbl1 => applyNodePolicies inits activation_type weight_type tbl1 rest

/-- The output half of the map-building loop (lines 271-274): record the
node as producer of each output, asserting the name is non-empty and not
already claimed. -/
def addOutputs (node : Node) : List String → List (String × Node) →
    Except QErr (List (String × Node))
  | [], producers => Except.ok producers
  | output_name :: rest, producers =>
    if output_name = "" then Except.error QErr.assertEmptyOutputName
    else if (alookup output_name producers).isSome then Except.error QErr.assertDuplicateProducer
    else addOutputs node rest (aset output_name node producers)

/-- The map-building loop of lines 261-274: producer and consumer maps from
the graph's node list (empty input names are skipped; output names must be
non-empty and unique). -/
def buildMaps : List Node → List (String × List Node) → List (String × Node) →
    Except QErr (List (String × List Node) × List (String × Node))
  | [], consumers, producers => Except.ok (consumers, producers)
  | node :: rest, consumers, producers =>
    match addOutputs node node.output producers with
    | Except.error e => Except.error e
    | Except.ok producers1 =>
        buildMaps rest
          (node.input.foldl
            (fun c input_name =>
              if input_name ≠ "" then
                aset input_name ((alookup input_name c).getD [] ++ [node]) c
              else c)
            consumers)
          producers1

/-- The override-table portion of `get_qnn_qdq_config` (lines 236-361):
reject per-channel, build the producer/consumer maps, deep-copy the initial
overrides (pure values, so a copy is the value itself; a falsy `init_overrides`
becomes the empty table), run `_add_qtype_converts` when the table is
non-empty and conversion insertion is enabled, then run the per-node policy
loop.  Model loading, calibration and the final `StaticQuantConfig`
assembly are outside this core's scope. -/
def getQnnQdqConfigTable (nodes : List Node) (value_infos : List (String × ValueInfo))
    (inits : List (String × InitRec)) (activation_type weight_type : QuantType)
    (init_overrides : OverrideTable) (add_qtype_converts : Bool) (per_channel : Bool) :
    Except QErr OverrideTable :=
  if per_channel = true then Except.error QErr.perChannelNotSupported
  else
    match buildMaps nodes [] [] with
    | Except.error e => Except.error e
    | Except.ok maps =>
      -- `maps.1` is the consumers map and `maps.2` the producers map;
      -- `tensor_quant_overrides` starts as the (deep-copied) initial table.
      match (if init_overrides ≠ [] ∧ add_qtype_converts = true then
               addQtypeConverts init_overrides activation_type value_infos inits
                 maps.2 maps.1
             else Except.ok init_overrides) with
      | Except.error e => Except.error e
      | Except.ok tbl1 => applyNodePolicies inits activation_type weight_type tbl1 nodes

/-- Is the result an error raised at one of the two consumer-conflict raise
sites of the request scan? -/
def isConsumerConflict {α : Type} : Except QErr α → Bool
  | Except.error (QErr.consumerConflict _) => true
  | _ => false

/-- The consumer-requested type recorded for tensor `x` in the transient
request map (the first component of `consumers`), if any. -/
def consType (x : String) (st : ReqMap) : Option QuantType :=
  (alookup x st).bind fun r => r.consumers.map Prod.fst

/-- The producer-requested type recorded for tensor `x` in the transient
request map, if any. -/
def prodTypeOf (x : String) (st : ReqMap) : Option QuantType :=
  (alookup x st).bind TensorTypeRequest.producer_type

/-! Concrete graphs and tables used as witnesses and counterexamples.
Scenario C of the spec: tensor `X` (produced by `n0`) feeds `P` and `Q`;
`X` and `P`'s output `o` both carry a `QInt16` override. -/

def nodeN0 : Node := ⟨"n0", "Relu", ["a"], ["X"]⟩

def nodeP : Node := ⟨"P", "Relu", ["X"], ["o"]⟩

def nodeQ : Node := ⟨"Q", "Relu", ["X"], ["oq"]⟩

def visC : List (String × ValueInfo) := [("X", ⟨true, 1⟩), ("o", ⟨true, 1⟩), ("oq", ⟨true, 1⟩)]

def producersC : List (String × Node) := [("X", nodeN0), ("o", nodeP), ("oq", nodeQ)]

def consumersC : List (String × List Node) := [("a", [nodeN0]), ("X", [nodeP, nodeQ])]

def tblC : OverrideTable :=
  [("X", [{ quant_type := some QuantType.QInt16 }]),
   ("o", [{ quant_type := some QuantType.QInt16 }])]

/-- The requests `_add_qtype_converts` collects from `tblC`. -/
def reqsC : ReqMap :=
  [("X", ⟨some QuantType.QInt16, some (QuantType.QInt16, {"P"})⟩),
   ("o", ⟨some QuantType.QInt16, none⟩)]

/-- The table `_add_qtype_converts` resolves `tblC` to. -/
def finalC : OverrideTable :=
  [("X", [{ quant_type := some QuantType.QInt16,
            convert := some ⟨QuantType.QUInt8, some {"Q"}⟩ }]),
   ("o", [{ quant_type := some QuantType.QInt16,
            convert := some ⟨QuantType.QUInt8, none⟩ }])]

/-- A table that already redirects consumer `P` of `X` away from `QInt16`
while `P`'s own output requests `QInt16` for `X` (reaches lines 209-212). -/
def tblC8 : OverrideTable :=
  [("X", [{ quant_type := some QuantType.QInt16,
            convert := some ⟨QuantType.QUInt8, some {"P"}⟩ }]),
   ("o", [{ quant_type := some QuantType.QInt16 }])]

/-! Two operations `P2`, `Q2` both consume `x` and their outputs carry
overrides of different 16-bit types, yielding conflicting consumer-side
requests for `x`. -/

def node2P : Node := ⟨"P2", "Relu", ["x"], ["o1"]⟩

def node2Q : Node := ⟨"Q2", "Relu", ["x"], ["o2"]⟩

def vis2 : List (String × ValueInfo) :=
  [("x", ⟨true, 1⟩), ("o1", ⟨true, 1⟩), ("o2", ⟨true, 1⟩)]

def producers2 : List (String × Node) := [("o1", node2P), ("o2", node2Q)]

def tbl2 : OverrideTable :=
  [("o1", [{ quant_type := some QuantType.QInt16 }]),
   ("o2", [{ quant_type := some QuantType.QUInt16 }])]

/-! A single `Relu` node `n1 : x → o` with an overridden output, used to
show the resolver creates an entry for the untouched tensor `x`. -/

def node9 : Node := ⟨"n1", "Relu", ["x"], ["o"]⟩

def vis9 : List (String × ValueInfo) := [("x", ⟨true, 1⟩), ("o", ⟨true, 1⟩)]

def tbl9 : OverrideTable := [("o", [{ quant_type := some QuantType.QInt16 }])]

/-! A `Sigmoid` node whose output carries a user `symmetric` override,
and a `LayerNormalization` node with initializer inputs `s` (scale) and
`b` (bias). -/

def nodeSig : Node := ⟨"sg", "Sigmoid", ["x"], ["o4"]⟩

def nodeTanh : Node := ⟨"th", "Tanh", ["x"], ["o5"]⟩

def tblSigUser : OverrideTable :=
  [("o4", [{ quant_type := some QuantType.QUInt16, symmetric := some true }])]

def nodeLN : Node := ⟨"ln", "LayerNormalization", ["x", "s", "b"], ["y"]⟩

def initsLN : List (String × InitRec) := [("s", ⟨1⟩), ("b", ⟨1⟩)]

def tblLN : OverrideTable := [("x", [{ quant_type := some QuantType.QInt16 }])]

/-! A `MatMul` node with a 16-bit activation input `a` and an initializer
input `w` whose override already fixes a narrow weight type. -/

def nodeMM : Node := ⟨"mm", "MatMul", ["a", "w"], ["y"]⟩

def initsMM : List (String × InitRec) := [("w", ⟨1⟩)]

def tblMM : OverrideTable :=
  [("a", [{ quant_type := some QuantType.QInt16 }]),
   ("w", [{ quant_type := some QuantType.QInt8 }])]

/-- A multi-record (per-channel style) override entry. -/
def tblMulti : OverrideTable := [("X", [{}, {}])]

def visMulti : List (String × ValueInfo) := [("X", ⟨true, 1⟩)]

theorem rat_1_65536_eq : rat_1_65536 = 1 / 65536 := by
  rw [rat_1_65536, Rat.mk'_eq_divInt, Rat.divInt_eq_div]
  norm_num

theorem rat_1_32768_eq : rat_1_32768 = 1 / 32768 := by
  rw [rat_1_32768, Rat.mk'_eq_divInt, Rat.divInt_eq_div]
  norm_num

theorem alookup_aset_self {β : Type} (k : String) (v : β) (l : List (String × β)) :
    alookup k (aset k v l) = some v := by
  induction l with
  | nil => simp [aset, alookup]
  | cons p rest ih =>
    by_cases h : p.1 = k
    · simp [aset, alookup, h]
    · simp [aset, alookup, h, ih]

theorem alookup_aset_ne {β : Type} {k u : String} (h : u ≠ k) (v : β) (l : List (String × β)) :
    alookup u (aset k v l) = alookup u l := by
  have hku : ¬ (k = u) := fun hh => h hh.symm
  induction l with
  | nil => simp [aset, alookup, hku]
  | cons p rest ih =>
    by_cases hp : p.1 = k
    · simp [aset, alookup, hp, hku]
    · simp [aset, alookup, hp, ih]

theorem akeys_cons {β : Type} (p : String × β) (l : List (String × β)) :
    akeys (p :: l) = p.1 :: akeys l := rfl

theorem alookup_eq_none_iff {β : Type} (k : String) (l : List (String × β)) :
    alookup k l = none ↔ k ∉ akeys l := by
  induction l with
  | nil => simp [alookup, akeys]
  | cons p rest ih =>
    rw [akeys_cons, List.mem_cons]
    by_cases h : p.1 = k
    · simp [alookup, h]
    · rw [show alookup k (p :: rest) = alookup k rest from by simp [alookup, h], ih]
      have hnk : ¬ k = p.1 := fun hh => h hh.symm
      simp [hnk]

theorem akeys_aset_of_mem {β : Type} {k : String} (v : β) {l : List (String × β)}
    (h : k ∈ akeys l) : akeys (aset k v l) = akeys l := by
  induction l with
  | nil => simp [akeys] at h
  | cons p rest ih =>
    by_cases hp : p.1 = k
    · simp [aset, hp, akeys_cons]
    · have hk : k ∈ akeys rest := by
        rw [akeys_cons, List.mem_cons] at h
        rcases h with h1 | h1
        · exact absurd h1.symm hp
        · exact h1
      simp only [aset, if_neg hp, akeys_cons]
      rw [ih hk]

theorem akeys_aset_of_not_mem {β : Type} {k : String} (v : β) {l : List (String × β)}
    (h : k ∉ akeys l) : akeys (aset k v l) = akeys l ++ [k] := by
  induction l with
  | nil => simp [aset, akeys]
  | cons p rest ih =>
    have hp : p.1 ≠ k := by
      intro hh
      exact h (by rw [akeys_cons, List.mem_cons]; left; exact hh.symm)
    have hrest : k ∉ akeys rest := by
      intro hh
      exact h (by rw [akeys_cons, List.mem_cons]; right; exact hh)
    simp only [aset, if_neg hp, akeys_cons, List.cons_append]
    rw [ih hrest]

theorem nodup_akeys_aset {β : Type} {k : String} (v : β) {l : List (String × β)}
    (h : (akeys l).Nodup) : (akeys (aset k v l)).Nodup := by
  by_cases hm : k ∈ akeys l
  · rw [akeys_aset_of_mem v hm]
    exact h
  · rw [akeys_aset_of_not_mem v hm]
    simp [List.nodup_append, h, hm]

theorem mem_akeys_of_mem {β : Type} {p : String × β} {l : List (String × β)}
    (h : p ∈ l) : p.1 ∈ akeys l := List.mem_map_of_mem Prod.fst h

theorem addToConvertRecvNodesAssign_frame {tbl : OverrideTable} {t : String}
    {ct : QuantType} {names : Finset String} {ov : TensorOverride}
    {rest : List TensorOverride} {cv : ConvertRec} {tbl' : OverrideTable}
    (h : addToConvertRecvNodesAssign tbl t ct names ov rest cv = Except.ok tbl')
    {u : String} (hu : u ≠ t) : alookup u tbl' = alookup u tbl := by
  unfold addToConvertRecvNodesAssign at h
  split at h
  · cases h
  · simp only [Except.ok.injEq] at h
    subst h
    exact alookup_aset_ne hu _ _

theorem addToConvertRecvNodesCore_frame {tbl : OverrideTable} {t : String}
    {ct : QuantType} {names : Finset String} {ov : TensorOverride}
    {rest : List TensorOverride} {tbl' : OverrideTable}
    (h : addToConvertRecvNodesCore tbl t ct names ov rest = Except.ok tbl')
    {u : String} (hu : u ≠ t) : alookup u tbl' = alookup u tbl := by
  unfold addToConvertRecvNodesCore at h
  exact addToConvertRecvNodesAssign_frame h hu

theorem addToConvertRecvNodes_frame {tbl : OverrideTable} {t : String}
    {pt ct : QuantType} {names : Finset String} {tbl' : OverrideTable}
    (h : addToConvertRecvNodes tbl t pt ct names = Except.ok tbl')
    {u : String} (hu : u ≠ t) : alookup u tbl' = alookup u tbl := by
  unfold addToConvertRecvNodes at h
  split at h
  · exact addToConvertRecvNodesCore_frame h hu
  · exact addToConvertRecvNodesCore_frame h hu
  · exact addToConvertRecvNodesCore_frame h hu

theorem setWeightType_frame {tbl : OverrideTable} {t : String} {wt : QuantType}
    {ws : Bool} {tbl' : OverrideTable}
    (h : setWeightType tbl t wt ws = Except.ok tbl')
    {u : String} (hu : u ≠ t) : alookup u tbl' = alookup u tbl := by
  unfold setWeightType at h
  split at h
  · simp only [Except.ok.injEq] at h
    subst h
    exact alookup_aset_ne hu _ _
  · simp only [Except.ok.injEq] at h
    subst h
    exact alookup_aset_ne hu _ _
  · split at h
    · simp only [Except.ok.injEq] at h
      subst h
      exact alookup_aset_ne hu _ _
    · simp only [Except.ok.injEq] at h
      subst h
      rfl
  · cases h

theorem setScaleZeroPointAssign_frame {tbl : OverrideTable} {t : String}
    {qt : QuantType} {sc : ℚ} {zp : ℤ} {ov1 : TensorOverride} {tbl' : OverrideTable}
    (h : setScaleZeroPointAssign tbl t qt sc zp ov1 = Except.ok tbl')
    {u : String} (hu : u ≠ t) : alookup u tbl' = alookup u tbl := by
  unfold setScaleZeroPointAssign at h
  split at h
  · cases h
  · split at h
    · simp only [Except.ok.injEq] at h
      subst h
      exact alookup_aset_ne hu _ _
    · simp only [Except.ok.injEq] at h
      subst h
      exact alookup_aset_ne hu _ _

theorem setScaleZeroPointCore_frame {tbl : OverrideTable} {t : String}
    {qt : QuantType} {sc : ℚ} {zp : ℤ} {ov : TensorOverride} {tbl' : OverrideTable}
    (h : setScaleZeroPointCore tbl t qt sc zp ov = Except.ok tbl')
    {u : String} (hu : u ≠ t) : alookup u tbl' = alookup u tbl := by
  unfold setScaleZeroPointCore at h
  exact setScaleZeroPointAssign_frame h hu

theorem setScaleZeroPoint_frame {tbl : OverrideTable} {t : String} {qt : QuantType}
    {sc : ℚ} {zp : ℤ} {tbl' : OverrideTable}
    (h : setScaleZeroPoint tbl t qt sc zp = Except.ok tbl')
    {u : String} (hu : u ≠ t) : alookup u tbl' = alookup u tbl := by
  unfold setScaleZeroPoint at h
  split at h
  · exact setScaleZeroPointCore_frame h hu
  · exact setScaleZeroPointCore_frame h hu
  · exact setScaleZeroPointCore_frame h hu
  · cases h

theorem processStep_frame {act : QuantType} {cons : List (String × List Node)}
    {tbl : OverrideTable} {t : String} {req : TensorTypeRequest} {tbl' : OverrideTable}
    (h : processStep act cons tbl t req = Except.ok tbl')
    {u : String} (hu : u ≠ t) : alookup u tbl' = alookup u tbl := by
  unfold processStep at h
  split at h
  · -- only producer type
    split at h
    · cases h
    · cases h
    · simp only [Except.ok.injEq] at h
      subst h
      exact alookup_aset_ne hu _ _
  · cases h
  · -- only consumers
    split at h
    · cases h
    · split at h
      · exact addToConvertRecvNodes_frame h hu
      · split at h
        · cases h
        · simp only [Except.ok.injEq] at h
          subst h
          rfl
  · -- both producer and consumers
    split at h
    · exact addToConvertRecvNodes_frame h hu
    · split at h
      · cases h
      · split at h
        · split at h
          · cases h
          · cases h
          · split at h
            · cases h
            · simp only [Except.ok.injEq] at h
              subst h
              rfl
        · exact addToConvertRecvNodes_frame h hu

theorem processTypeRequests_frame {act : QuantType} {cons : List (String × List Node)} :
    ∀ {reqs : ReqMap} {tbl tbl' : OverrideTable} {t : String},
      processTypeRequests act cons tbl reqs = Except.ok tbl' → t ∉ akeys reqs →
      alookup t tbl' = alookup t tbl := by
  intro reqs
  induction reqs with
  | nil =>
    intro tbl tbl' t h _
    simp only [processTypeRequests, Except.ok.injEq] at h
    subst h
    rfl
  | cons p rest ih =>
    intro tbl tbl' t h hnm
    rw [akeys_cons, List.mem_cons] at hnm
    push_neg at hnm
    obtain ⟨hne, hnm⟩ := hnm
    rcases p with ⟨u, r⟩
    simp only [processTypeRequests] at h
    split at h
    · cases h
    · rename_i tbl1 hstep
      rw [ih h hnm]
      exact processStep_frame hstep hne

theorem recordConsumerRequest_nodup {qt : QuantType} {nn : String} {st st' : ReqMap}
    {x : String} (h : recordConsumerRequest qt nn st x = Except.ok st')
    (hnd : (akeys st).Nodup) : (akeys st').Nodup := by
  unfold recordConsumerRequest at h
  split at h
  · simp only [Except.ok.injEq] at h
    subst h
    exact nodup_akeys_aset _ hnd
  · split at h
    · simp only [Except.ok.injEq] at h
      subst h
      exact nodup_akeys_aset _ hnd
    · split at h
      · cases h
      · simp only [Except.ok.injEq] at h
        subst h
        exact nodup_akeys_aset _ hnd

theorem recordConsumerRequests_nodup {qt : QuantType} {nn : String}
    {vis : List (String × ValueInfo)} {inits : List (String × InitRec)} :
    ∀ {inputs : List String} {st st' : ReqMap},
      recordConsumerRequests qt nn vis inits st inputs = Except.ok st' →
      (akeys st).Nodup → (akeys st').Nodup := by
  intro inputs
  induction inputs with
  | nil =>
    intro st st' h hnd
    simp only [recordConsumerRequests, Except.ok.injEq] at h
    subst h
    exact hnd
  | cons x rest ih =>
    intro st st' h hnd
    simp only [recordConsumerRequests] at h
    split at h
    · split at h
      · cases h
      · rename_i st1 hstep
        exact ih h (recordConsumerRequest_nodup hstep hnd)
    · exact ih h hnd

theorem recordProducerRequest_nodup {qt : QuantType} {t : String} {st st' : ReqMap}
    (h : recordProducerRequest qt t st = Except.ok st')
    (hnd : (akeys st).Nodup) : (akeys st').Nodup := by
  unfold recordProducerRequest at h
  split at h
  · simp only [Except.ok.injEq] at h
    subst h
    exact nodup_akeys_aset _ hnd
  · split at h
    · cases h
    · simp only [Except.ok.injEq] at h
      subst h
      exact nodup_akeys_aset _ hnd

theorem collectStep_nodup {act : QuantType} {vis : List (String × ValueInfo)}
    {inits : List (String × InitRec)} {producers : List (String × Node)}
    {st st' : ReqMap} {t : String} {ovl : List TensorOverride}
    (h : collectStep act vis inits producers st t ovl = Except.ok st')
    (hnd : (akeys st).Nodup) : (akeys st').Nodup := by
  unfold collectStep at h
  split at h
  · simp only [Except.ok.injEq] at h
    subst h
    exact hnd
  · split at h
    · simp only [Except.ok.injEq] at h
      subst h
      exact hnd
    · split at h
      · split at h
        · cases h
        · split at h
          · split at h
            · cases h
            · rename_i st1 hprod
              exact recordConsumerRequests_nodup h (recordProducerRequest_nodup hprod hnd)
          · simp only [Except.ok.injEq] at h
            subst h
            exact hnd
      · simp only [Except.ok.injEq] at h
        subst h
        exact hnd

theorem collectTypeRequests_nodup {act : QuantType} {vis : List (String × ValueInfo)}
    {inits : List (String × InitRec)} {producers : List (String × Node)} :
    ∀ {tbl : OverrideTable} {st st' : ReqMap},
      collectTypeRequests act vis inits producers st tbl = Except.ok st' →
      (akeys st).Nodup → (akeys st').Nodup := by
  intro tbl
  induction tbl with
  | nil =>
    intro st st' h hnd
    simp only [collectTypeRequests, Except.ok.injEq] at h
    subst h
    exact hnd
  | cons p rest ih =>
    intro st st' h hnd
    rcases p with ⟨t, ovl⟩
    simp only [collectTypeRequests] at h
    split at h
    · cases h
    · rename_i st1 hstep
      exact ih h (collectStep_nodup hstep hnd)

theorem processTypeRequests_localize {act : QuantType} {cons : List (String × List Node)}
    {t : String} {req : TensorTypeRequest} {E0 E1 : Option (List TensorOverride)}
    (H : ∀ tblX, alookup t tblX = E0 →
      ∃ tblY, processStep act cons tblX t req = Except.ok tblY ∧ alookup t tblY = E1) :
    ∀ {reqs : ReqMap} {tbl final : OverrideTable},
      (akeys reqs).Nodup → (t, req) ∈ reqs → alookup t tbl = E0 →
      processTypeRequests act cons tbl reqs = Except.ok final → alookup t final = E1 := by
  intro reqs
  induction reqs with
  | nil =>
    intro tbl final _ hmem _ _
    cases hmem
  | cons p rest ih =>
    intro tbl final hnd hmem htbl hrun
    rcases p with ⟨u, r⟩
    rw [akeys_cons, List.nodup_cons] at hnd
    obtain ⟨hu_notin, hnd_rest⟩ := hnd
    simp only [processTypeRequests] at hrun
    split at hrun
    · cases hrun
    · rename_i tbl1 hstep
      rcases List.mem_cons.mp hmem with heq | hmem'
      · injection heq with ht hr
        subst ht
        subst hr
        obtain ⟨tblY, hstepY, hE1⟩ := H tbl htbl
        rw [hstep] at hstepY
        have htblY : tblY = tbl1 := by
          simpa using hstepY.symm
        subst htblY
        rw [processTypeRequests_frame hrun hu_notin]
        exact hE1
      · have hut : u ≠ t := by
          intro he
          subst he
          exact hu_notin (by simpa using mem_akeys_of_mem hmem')
        have htbl1 : alookup t tbl1 = E0 := by
          rw [processStep_frame hstep (fun he => hut he.symm)]
          exact htbl
        exact ih hnd_rest hmem' htbl1 hrun

/-- Claim C1: when a tensor carries both a producer-side request and a
consumer-side request for the same type `T` (different from the default
activation type), the resolver leaves the entry without a `convert`
directive if every consumer of the tensor is in the requesting set, and
otherwise adds a `convert` directive targeting the default activation type
whose receiver set is exactly the set of non-requesting consumers. -/
theorem claim_C1 {tbl : OverrideTable} {act : QuantType}
    {vis : List (String × ValueInfo)} {inits : List (String × InitRec)}
    {producers : List (String × Node)} {consumers : List (String × List Node)}
    {t : String} {T : QuantType} {S : Finset String} {ov : TensorOverride}
    {reqs : ReqMap} {cnodes : List Node} {final : OverrideTable}
    (hcollect : collectTypeRequests act vis inits producers [] tbl = Except.ok reqs)
    (hmem : (t, ⟨some T, some (T, S)⟩) ∈ reqs)
    (hT : T ≠ act)
    (hentry : alookup t tbl = some [ov])
    (hconv : ov.convert = none)
    (hcons : alookup t consumers = some cnodes)
    (hok : addQtypeConverts tbl act vis inits producers consumers = Except.ok final) :
    ((cnodes.map Node.name).toFinset \ S = ∅ → alookup t final = some [ov]) ∧
    ((cnodes.map Node.name).toFinset \ S ≠ ∅ →
      alookup t final =
        some [{ ov with
          convert := some ⟨act, some ((cnodes.map Node.name).toFinset \ S)⟩ }]) := by
  have hnd : (akeys reqs).Nodup := collectTypeRequests_nodup hcollect List.nodup_nil
  have hrun : processTypeRequests act consumers tbl reqs = Except.ok final := by
    unfold addQtypeConverts at hok
    rw [hcollect] at hok
    exact hok
  constructor
  · intro hrem
    refine processTypeRequests_localize ?_ hnd hmem hentry hrun
    intro tblX hX
    refine ⟨tblX, ?_, hX⟩
    simp [processStep, hcons, hrem, hX, hconv]
  · intro hrem
    refine processTypeRequests_localize ?_ hnd hmem hentry hrun
    intro tblX hX
    refine ⟨aset t
      [{ ov with convert := some ⟨act, some ((cnodes.map Node.name).toFinset \ S)⟩ }] tblX,
      ?_, alookup_aset_self _ _ _⟩
    simp [processStep, hcons, hrem, hX, hconv, addToConvertRecvNodes,
      addToConvertRecvNodesCore, addToConvertRecvNodesAssign]

/-- Witness for C1 at Scenario C: the non-requesting consumer set is
`{"Q"}`, and the resolved entry for `X` converts back to the activation
type exactly for `Q`. -/
theorem claim_C1_witness :
    alookup "X" finalC =
      some [{ quant_type := some QuantType.QInt16,
              convert := some ⟨QuantType.QUInt8,
                some (([nodeP, nodeQ].map Node.name).toFinset \ {"P"})⟩ }] :=
  (@claim_C1 tblC QuantType.QUInt8 visC [] producersC consumersC "X"
      QuantType.QInt16 {"P"} { quant_type := some QuantType.QInt16 } reqsC
      [nodeP, nodeQ] finalC
      (by decide) (by decide) (by decide) (by decide) (by decide) (by decide)
      (by decide)).2 (by decide)

/-- Claim C3: a tensor whose only request is producer-side (single override
record of a type different from the activation type, no existing `convert`,
no consumer-side request) is resolved by setting its entry's `convert`
directive to the default activation type with no `recv_nodes` restriction. -/
theorem claim_C3 {tbl : OverrideTable} {act : QuantType}
    {vis : List (String × ValueInfo)} {inits : List (String × InitRec)}
    {producers : List (String × Node)} {consumers : List (String × List Node)}
    {t : String} {T : QuantType} {ov : TensorOverride}
    {reqs : ReqMap} {final : OverrideTable}
    (hcollect : collectTypeRequests act vis inits producers [] tbl = Except.ok reqs)
    (hmem : (t, ⟨some T, none⟩) ∈ reqs)
    (hqt : ov.quant_type = some T)
    (hT : T ≠ act)
    (hentry : alookup t tbl = some [ov])
    (hconv : ov.convert = none)
    (hok : addQtypeConverts tbl act vis inits producers consumers = Except.ok final) :
    alookup t final = some [{ ov with convert := some ⟨act, none⟩ }] := by
  have hnd : (akeys reqs).Nodup := collectTypeRequests_nodup hcollect List.nodup_nil
  have hrun : processTypeRequests act consumers tbl reqs = Except.ok final := by
    unfold addQtypeConverts at hok
    rw [hcollect] at hok
    exact hok
  refine processTypeRequests_localize ?_ hnd hmem hentry hrun
  intro tblX hX
  refine ⟨aset t [{ ov with convert := some ⟨act, none⟩ }] tblX, ?_,
    alookup_aset_self _ _ _⟩
  simp [processStep, hX]

/-- Witness for C3 at Scenario C: tensor `o` has only the producer-side
`QInt16` request, and its resolved entry converts back to `QUInt8` with no
receiver restriction. -/
theorem claim_C3_witness :
    alookup "o" finalC =
      some [{ quant_type := some QuantType.QInt16,
              convert := some ⟨QuantType.QUInt8, none⟩ }] :=
  @claim_C3 tblC QuantType.QUInt8 visC [] producersC consumersC "o"
    QuantType.QInt16 { quant_type := some QuantType.QInt16 } reqsC finalC
    (by decide) (by decide) (by decide) (by decide) (by decide) (by decide)
    (by decide)

/-- Claim C8 (refuted by the code, supporting status code_bug): the
`ValueError` raised when a consumer request contradicts an existing
restricted `convert` directive (lines 209-212) does NOT carry the
conflicting tensor's name: the source string literal lacks the `f` prefix,
so the message contains the literal characters `{tensor_name}`.  At the
concrete failing input (tensor `X`) the resolver raises this error and its
message contains no occurrence of the name `X`. -/
theorem claim_C8_bug :
    addQtypeConverts tblC8 QuantType.QUInt8 visC [] producersC consumersC =
      Except.error QErr.convertConflict ∧
    QErr.message QErr.convertConflict =
      "Tensor override for '\x7btensor_name\x7d' converts the type for consumers that need the original type." ∧
    'X' ∉ (QErr.message QErr.convertConflict).data :=
  ⟨by decide, rfl, by decide⟩

/-- Claim C7 as amended: the resolution scan of `_add_qtype_converts`
silently SKIPS zero- and multi-record entries (lines 159-160) rather than
raising; `NotSupportedError` is raised only where a multi-record entry is
touched by the effective-output-type lookup or by the mutators
(`_get_output_activation_qtype`, `_set_weight_type`). -/
theorem claim_C7_amended :
    (∀ (act : QuantType) (vis : List (String × ValueInfo)) (inits : List (String × InitRec))
        (producers : List (String × Node)) (st : ReqMap) (t : String)
        (ovl : List TensorOverride), 1 < ovl.length →
        collectStep act vis inits producers st t ovl = Except.ok st) ∧
    (∀ (t : String) (tbl : OverrideTable) (act : QuantType) (l : List TensorOverride),
        alookup t tbl = some l → 1 < l.length →
        getOutputActivationQtype t tbl act = Except.error QErr.notSupported) ∧
    (∀ (tbl : OverrideTable) (t : String) (wt : QuantType) (ws : Bool)
        (l : List TensorOverride), alookup t tbl = some l → 1 < l.length →
        setWeightType tbl t wt ws = Except.error QErr.notSupported) := by
  refine ⟨?_, ?_, ?_⟩
  · intro act vis inits producers st t ovl hlen
    rcases ovl with _ | ⟨a, _ | ⟨b, r⟩⟩
    · exact absurd hlen (by simp)
    · exact absurd hlen (by simp)
    · unfold collectStep
      split
      · rfl
      · split
        · rfl
        · rfl
  · intro t tbl act l h hlen
    rcases l with _ | ⟨a, _ | ⟨b, r⟩⟩
    · exact absurd hlen (by simp)
    · exact absurd hlen (by simp)
    · simp [getOutputActivationQtype, h]
  · intro tbl t wt ws l h hlen
    rcases l with _ | ⟨a, _ | ⟨b, r⟩⟩
    · exact absurd hlen (by simp)
    · exact absurd hlen (by simp)
    · simp [setWeightType, h]

/-- Witness for the amended C7 at a concrete two-record entry. -/
theorem claim_C7_witness :
    collectStep QuantType.QUInt8 visMulti [] [] [] "X" [{}, {}] = Except.ok [] ∧
    getOutputActivationQtype "X" tblMulti QuantType.QUInt8 =
      Except.error QErr.notSupported ∧
    setWeightType tblMulti "X" QuantType.QInt8 true = Except.error QErr.notSupported :=
  ⟨claim_C7_amended.1 QuantType.QUInt8 visMulti [] [] [] "X" [{}, {}] (by decide),
   claim_C7_amended.2.1 "X" tblMulti QuantType.QUInt8 [{}, {}] (by decide) (by decide),
   claim_C7_amended.2.2 tblMulti "X" QuantType.QInt8 true [{}, {}] (by decide) (by decide)⟩

/-- Counterexample to C7 as stated: a quantizable tensor with a two-record
(per-channel style) override entry is passed over silently by the whole
resolution scan; `_add_qtype_converts` returns successfully instead of
raising `NotSupportedError`. -/
theorem claim_C7_counterexample :
    addQtypeConverts tblMulti QuantType.QUInt8 visMulti [] [] [] =
      Except.ok tblMulti := by decide

theorem setScaleZeroPoint_pin {tbl : OverrideTable} {out : String} {qt : QuantType}
    {sc : ℚ} {zp : ℤ} {ov : TensorOverride}
    (hentry : alookup out tbl = some [ov] ∨ (alookup out tbl = none ∧ ov = {}))
    (hq : ov.quant_type = none ∨ ov.quant_type = some qt)
    (hclean : hasUserRangeFields ov = false) :
    setScaleZeroPoint tbl out qt sc zp =
      Except.ok (aset out [{ ov with quant_type := some qt, scale := some sc, zero_point := some zp }] tbl) := by
  have hcore : setScaleZeroPointCore tbl out qt sc zp ov =
      Except.ok (aset out [{ ov with quant_type := some qt, scale := some sc, zero_point := some zp }] tbl) := by
    rcases hq with h0 | h0
    · unfold setScaleZeroPointCore
      rw [if_pos h0]
      unfold setScaleZeroPointAssign
      have h1 : ({ ov with quant_type := some qt } : TensorOverride).quant_type = some qt := rfl
      have h2 : hasUserRangeFields { ov with quant_type := some qt } = false := hclean
      rw [if_neg (by simp [h1]), if_neg (by simp [h2])]
    · unfold setScaleZeroPointCore
      rw [if_neg (by simp [h0])]
      unfold setScaleZeroPointAssign
      rw [if_neg (by simp [h0]), if_neg (by simp [hclean])]
      have h3 : ({ ov with quant_type := some qt, scale := some sc, zero_point := some zp } : TensorOverride) = { ov with zero_point := some zp, scale := some sc } := by
        cases ov
        simp_all
      rw [h3]
  rcases hentry with hE | ⟨hE, hov⟩
  · unfold setScaleZeroPoint
    rw [hE]
    exact hcore
  · subst hov
    unfold setScaleZeroPoint
    rw [hE]
    exact hcore

theorem applyNodePolicy_sigmoid {inits : List (String × InitRec)}
    {act wt : QuantType} {tbl : OverrideTable} {node : Node} {out : String}
    {T : QuantType}
    (hop : node.op_type = "Sigmoid") (hout : node.output[0]? = some out)
    (heff : getOutputActivationQtype out tbl act = Except.ok T) :
    applyNodePolicy inits act wt tbl node =
      (if T = QuantType.QUInt16 then setScaleZeroPoint tbl out T rat_1_65536 0
       else if T = QuantType.QInt16 then setScaleZeroPoint tbl out T rat_1_32768 0
       else Except.ok tbl) := by
  unfold applyNodePolicy
  simp only [hop, hout, heff]
  simp

theorem applyNodePolicy_tanh {inits : List (String × InitRec)}
    {act wt : QuantType} {tbl : OverrideTable} {node : Node} {out : String}
    {T : QuantType}
    (hop : node.op_type = "Tanh") (hout : node.output[0]? = some out)
    (heff : getOutputActivationQtype out tbl act = Except.ok T) :
    applyNodePolicy inits act wt tbl node =
      (if T = QuantType.QUInt16 then setScaleZeroPoint tbl out T rat_1_32768 32768
       else if T = QuantType.QInt16 then setScaleZeroPoint tbl out T rat_1_32768 0
       else Except.ok tbl) := by
  unfold applyNodePolicy
  simp only [hop, hout, heff]
  simp

theorem effective_qtype_cases {out : String} {tbl : OverrideTable} {act T : QuantType}
    {ov : TensorOverride}
    (hentry : alookup out tbl = some [ov] ∨ (alookup out tbl = none ∧ ov = {}))
    (heff : getOutputActivationQtype out tbl act = Except.ok T) :
    ov.quant_type = none ∨ ov.quant_type = some T := by
  rcases hentry with hE | ⟨hE, hov⟩
  · have heff' : ov.quant_type.getD act = T := by
      unfold getOutputActivationQtype at heff
      rw [hE] at heff
      simpa using heff
    cases hovq : ov.quant_type with
    | none => exact Or.inl rfl
    | some q =>
      refine Or.inr ?_
      rw [hovq] at heff'
      simp only [Option.getD_some] at heff'
      rw [heff']
  · subst hov
    exact Or.inl rfl

/-- Claim C4 as amended: for a `Sigmoid` (resp. `Tanh`) operation whose
output's effective type is wide unsigned or wide signed, the policy pins
the required scale and zero-point on the output's entry — PROVIDED the
entry carries none of the user calibration fields
`scale`/`zero_point`/`symmetric`/`reduce_range`/`rmin`/`rmax` (otherwise
the pin is skipped with a warning, see the counterexample).  Pins:
Sigmoid wide unsigned → scale 1/65536, zero-point 0; Sigmoid wide signed →
1/32768, 0; Tanh wide unsigned → 1/32768, 32768; Tanh wide signed →
1/32768, 0. -/
theorem claim_C4_amended :
    (∀ (inits : List (String × InitRec)) (act wt : QuantType) (tbl : OverrideTable)
        (node : Node) (out : String) (ov : TensorOverride),
        node.op_type = "Sigmoid" → node.output[0]? = some out →
        (alookup out tbl = some [ov] ∨ (alookup out tbl = none ∧ ov = {})) →
        hasUserRangeFields ov = false →
        getOutputActivationQtype out tbl act = Except.ok QuantType.QUInt16 →
        applyNodePolicy inits act wt tbl node =
          Except.ok (aset out [{ ov with quant_type := some QuantType.QUInt16, scale := some (1 / 65536), zero_point := some 0 }] tbl)) ∧
    (∀ (inits : List (String × InitRec)) (act wt : QuantType) (tbl : OverrideTable)
        (node : Node) (out : String) (ov : TensorOverride),
        node.op_type = "Sigmoid" → node.output[0]? = some out →
        (alookup out tbl = some [ov] ∨ (alookup out tbl = none ∧ ov = {})) →
        hasUserRangeFields ov = false →
        getOutputActivationQtype out tbl act = Except.ok QuantType.QInt16 →
        applyNodePolicy inits act wt tbl node =
          Except.ok (aset out [{ ov with quant_type := some QuantType.QInt16, scale := some (1 / 32768), zero_point := some 0 }] tbl)) ∧
    (∀ (inits : List (String × InitRec)) (act wt : QuantType) (tbl : OverrideTable)
        (node : Node) (out : String) (ov : TensorOverride),
        node.op_type = "Tanh" → node.output[0]? = some out →
        (alookup out tbl = some [ov] ∨ (alookup out tbl = none ∧ ov = {})) →
        hasUserRangeFields ov = false →
        getOutputActivationQtype out tbl act = Except.ok QuantType.QUInt16 →
        applyNodePolicy inits act wt tbl node =
          Except.ok (aset out [{ ov with quant_type := some QuantType.QUInt16, scale := some (1 / 32768), zero_point := some 32768 }] tbl)) ∧
    (∀ (inits : List (String × InitRec)) (act wt : QuantType) (tbl : OverrideTable)
        (node : Node) (out : String) (ov : TensorOverride),
        node.op_type = "Tanh" → node.output[0]? = some out →
        (alookup out tbl = some [ov] ∨ (alookup out tbl = none ∧ ov = {})) →
        hasUserRangeFields ov = false →
        getOutputActivationQtype out tbl act = Except.ok QuantType.QInt16 →
        applyNodePolicy inits act wt tbl node =
          Except.ok (aset out [{ ov with quant_type := some QuantType.QInt16, scale := some (1 / 32768), zero_point := some 0 }] tbl)) := by
  refine ⟨?_, ?_, ?_, ?_⟩
  · intro inits act wt tbl node out ov hop hout hentry hclean heff
    have hq := effective_qtype_cases hentry heff
    rw [applyNodePolicy_sigmoid hop hout heff, if_pos rfl,
      setScaleZeroPoint_pin hentry hq hclean, rat_1_65536_eq]
  · intro inits act wt tbl node out ov hop hout hentry hclean heff
    have hq := effective_qtype_cases hentry heff
    rw [applyNodePolicy_sigmoid hop hout heff, if_neg (by simp), if_pos rfl,
      setScaleZeroPoint_pin hentry hq hclean, rat_1_32768_eq]
  · intro inits act wt tbl node out ov hop hout hentry hclean heff
    have hq := effective_qtype_cases hentry heff
    rw [applyNodePolicy_tanh hop hout heff, if_pos rfl,
      setScaleZeroPoint_pin hentry hq hclean, rat_1_32768_eq]
  · intro inits act wt tbl node out ov hop hout hentry hclean heff
    have hq := effective_qtype_cases hentry heff
    rw [applyNodePolicy_tanh hop hout heff, if_neg (by simp), if_pos rfl,
      setScaleZeroPoint_pin hentry hq hclean, rat_1_32768_eq]

/-- Witness for the amended C4: all four pin cases at concrete inputs
(empty table, wide default activation type). -/
theorem claim_C4_witness :
    applyNodePolicy [] QuantType.QUInt16 QuantType.QUInt8 [] nodeSig =
      Except.ok (aset "o4" [{ quant_type := some QuantType.QUInt16, scale := some (1 / 65536), zero_point := some 0 }] []) ∧
    applyNodePolicy [] QuantType.QInt16 QuantType.QUInt8 [] nodeSig =
      Except.ok (aset "o4" [{ quant_type := some QuantType.QInt16, scale := some (1 / 32768), zero_point := some 0 }] []) ∧
    applyNodePolicy [] QuantType.QUInt16 QuantType.QUInt8 [] nodeTanh =
      Except.ok (aset "o5" [{ quant_type := some QuantType.QUInt16, scale := some (1 / 32768), zero_point := some 32768 }] []) ∧
    applyNodePolicy [] QuantType.QInt16 QuantType.QUInt8 [] nodeTanh =
      Except.ok (aset "o5" [{ quant_type := some QuantType.QInt16, scale := some (1 / 32768), zero_point := some 0 }] []) :=
  ⟨claim_C4_amended.1 [] QuantType.QUInt16 QuantType.QUInt8 [] nodeSig "o4" {}
      (by decide) (by decide) (Or.inr ⟨rfl, rfl⟩) (by decide) (by decide),
   claim_C4_amended.2.1 [] QuantType.QInt16 QuantType.QUInt8 [] nodeSig "o4" {}
      (by decide) (by decide) (Or.inr ⟨rfl, rfl⟩) (by decide) (by decide),
   claim_C4_amended.2.2.1 [] QuantType.QUInt16 QuantType.QUInt8 [] nodeTanh "o5" {}
      (by decide) (by decide) (Or.inr ⟨rfl, rfl⟩) (by decide) (by decide),
   claim_C4_amended.2.2.2 [] QuantType.QInt16 QuantType.QUInt8 [] nodeTanh "o5" {}
      (by decide) (by decide) (Or.inr ⟨rfl, rfl⟩) (by decide) (by decide)⟩

/-- Counterexample to C4 as stated: a `Sigmoid` whose output entry has the
user field `symmetric` set and effective type wide unsigned; the policy
leaves `scale`/`zero_point` unset (warn-and-skip, lines 77-80) instead of
pinning scale 1/65536. -/
theorem claim_C4_counterexample :
    Except.map (alookup "o4")
        (applyNodePolicy [] QuantType.QUInt8 QuantType.QUInt8 tblSigUser nodeSig) =
      Except.ok (some [{ quant_type := some QuantType.QUInt16, symmetric := some true }]) := by
  decide

theorem setWeightType_noop {tbl : OverrideTable} {t : String} {wt : QuantType} {ws : Bool}
    {ov : TensorOverride} (hE : alookup t tbl = some [ov])
    (huser : ov.quant_type ≠ none ∨ ov.symmetric ≠ none) :
    setWeightType tbl t wt ws = Except.ok tbl := by
  have hcond : ¬(ov.quant_type = none ∧ ov.symmetric = none) := by
    rintro ⟨h1, h2⟩
    rcases huser with h | h
    · exact h h1
    · exact h h2
  simp only [setWeightType, hE]
  rw [if_neg hcond]

theorem setWeightType_preserves {tbl tbl' : OverrideTable} {k t : String}
    {wt : QuantType} {ws : Bool} {ov : TensorOverride}
    (hE : alookup t tbl = some [ov]) (huser : ov.quant_type ≠ none ∨ ov.symmetric ≠ none)
    (h : setWeightType tbl k wt ws = Except.ok tbl') :
    alookup t tbl' = alookup t tbl := by
  by_cases hkt : k = t
  · subst hkt
    rw [setWeightType_noop hE huser] at h
    simp only [Except.ok.injEq] at h
    subst h
    rfl
  · exact setWeightType_frame h (fun he => hkt he.symm)

theorem lnPromoteFirstTwo_preserves {inits : List (String × InitRec)} {wt : QuantType}
    {ws : Bool} {tbl tbl' : OverrideTable} {node : Node} {t : String} {ov : TensorOverride}
    (hE : alookup t tbl = some [ov]) (huser : ov.quant_type ≠ none ∨ ov.symmetric ≠ none)
    (h : lnPromoteFirstTwo inits wt ws tbl node = Except.ok tbl') :
    alookup t tbl' = alookup t tbl := by
  unfold lnPromoteFirstTwo at h
  split at h
  · cases h
  · rename_i in0 hin0
    split at h
    · cases h
    · rename_i tbl1 hstep0
      have h1 : alookup t tbl1 = alookup t tbl := by
        split at hstep0
        · exact setWeightType_preserves hE huser hstep0
        · simp only [Except.ok.injEq] at hstep0
          subst hstep0
          rfl
      have hE1 : alookup t tbl1 = some [ov] := by rw [h1, hE]
      split at h
      · cases h
      · rename_i in1 hin1
        split at h
        · rw [setWeightType_preserves hE1 huser h]
          exact h1
        · simp only [Except.ok.injEq] at h
          subst h
          exact h1

theorem matMulScanFold_snd_mem {inits : List (String × InitRec)} {act : QuantType}
    {tbl : OverrideTable} {nname : String} :
    ∀ (inputs : List String) (p : Option String × Option String) (s : String),
      (inputs.foldl
        (fun p input_name =>
          if isInit input_name inits = false then
            if getInputActivationQtype tbl input_name nname act ∈ Q16_TYPES then
              (some input_name, p.2)
            else p
          else (p.1, some input_name)) p).2 = some s →
      p.2 = some s ∨ s ∈ inputs := by
  intro inputs
  induction inputs with
  | nil =>
    intro p s h
    exact Or.inl h
  | cons x rest ih =>
    intro p s h
    rw [List.foldl_cons] at h
    rcases ih _ s h with h1 | h1
    · by_cases hi : isInit x inits = false
      · by_cases hq : getInputActivationQtype tbl x nname act ∈ Q16_TYPES
        · rw [if_pos hi, if_pos hq] at h1
          exact Or.inl h1
        · rw [if_pos hi, if_neg hq] at h1
          exact Or.inl h1
      · rw [if_neg hi] at h1
        simp only [Option.some.injEq] at h1
        right
        rw [← h1]
        exact List.mem_cons_self x rest
    · right
      exact List.mem_cons_of_mem x h1

/-- Claim C5: `_set_weight_type` is a no-op on an entry that already has an
explicit `quant_type` or `symmetric`, and consequently the `MatMul` and
`LayerNormalization` promotion rules never alter a tensor whose single
override record carries a user-set `quant_type` or `symmetric`. -/
theorem claim_C5 :
    (∀ (tbl : OverrideTable) (t : String) (wt : QuantType) (ws : Bool) (ov : TensorOverride),
        alookup t tbl = some [ov] → (ov.quant_type ≠ none ∨ ov.symmetric ≠ none) →
        setWeightType tbl t wt ws = Except.ok tbl) ∧
    (∀ (inits : List (String × InitRec)) (act wt : QuantType) (tbl tbl' : OverrideTable)
        (node : Node) (t : String) (ov : TensorOverride),
        (node.op_type = "MatMul" ∨ node.op_type = "LayerNormalization") →
        alookup t tbl = some [ov] → (ov.quant_type ≠ none ∨ ov.symmetric ≠ none) →
        applyNodePolicy inits act wt tbl node = Except.ok tbl' →
        alookup t tbl' = alookup t tbl) := by
  constructor
  · intro tbl t wt ws ov hE huser
    exact setWeightType_noop hE huser
  · intro inits act wt tbl tbl' node t ov hop hE huser h
    unfold applyNodePolicy at h
    rcases hop with hop | hop
    · rw [hop] at h
      by_cases hq8 : wt ∈ Q8_TYPES
      · rw [if_pos ⟨rfl, hq8⟩] at h
        split at h
        · rw [setWeightType_preserves hE huser h]
        · simp only [Except.ok.injEq] at h
          subst h
          rfl
      · have c1 : ¬("MatMul" = "MatMul" ∧ wt ∈ Q8_TYPES) := fun hc => hq8 hc.2
        have c2 : ¬("MatMul" = "LayerNormalization" ∧ wt ∈ Q8_TYPES) :=
          fun hc => absurd hc.1 (by decide)
        have c3 : ("MatMul" : String) ≠ "Sigmoid" := by decide
        have c4 : ("MatMul" : String) ≠ "Tanh" := by decide
        rw [if_neg c1, if_neg c2, if_neg c3, if_neg c4] at h
        simp only [Except.ok.injEq] at h
        subst h
        rfl
    · rw [hop] at h
      have c1 : ¬("LayerNormalization" = "MatMul" ∧ wt ∈ Q8_TYPES) :=
        fun hc => absurd hc.1 (by decide)
      rw [if_neg c1] at h
      by_cases hq8 : wt ∈ Q8_TYPES
      · rw [if_pos ⟨rfl, hq8⟩] at h
        split at h
        · exact lnPromoteFirstTwo_preserves hE huser h
        · simp only [Except.ok.injEq] at h
          subst h
          rfl
      · have c2 : ¬("LayerNormalization" = "LayerNormalization" ∧ wt ∈ Q8_TYPES) :=
          fun hc => hq8 hc.2
        have c3 : ("LayerNormalization" : String) ≠ "Sigmoid" := by decide
        have c4 : ("LayerNormalization" : String) ≠ "Tanh" := by decide
        rw [if_neg c2, if_neg c3, if_neg c4] at h
        simp only [Except.ok.injEq] at h
        subst h
        rfl

/-- Witness for C5: the initializer `w` of the `MatMul` node carries a
user-set `quant_type`, and both the mutator and the whole `MatMul` policy
step leave it (and the table) unchanged. -/
theorem claim_C5_witness :
    setWeightType tblMM "w" QuantType.QInt8 true = Except.ok tblMM ∧
    alookup "w" tblMM = alookup "w" tblMM :=
  ⟨claim_C5.1 tblMM "w" QuantType.QInt8 true { quant_type := some QuantType.QInt8 }
      (by decide) (by decide),
   claim_C5.2 initsMM QuantType.QUInt8 QuantType.QInt8 tblMM tblMM nodeMM "w"
      { quant_type := some QuantType.QInt8 } (Or.inl rfl) (by decide) (by decide)
      (by decide)⟩

theorem setWeightType_absent {tbl : OverrideTable} {t : String} {wt : QuantType} {ws : Bool}
    (hE : alookup t tbl = none) :
    setWeightType tbl t wt ws =
      Except.ok (aset t [{ quant_type := some wt, symmetric := some ws }] tbl) := by
  simp only [setWeightType, hE]

theorem applyNodePolicy_ln {inits : List (String × InitRec)} {act wt : QuantType}
    {tbl : OverrideTable} {node : Node}
    (hop : node.op_type = "LayerNormalization") (hq8 : wt ∈ Q8_TYPES)
    (hq16 : lnHasQ16Activation inits act tbl node = true) :
    applyNodePolicy inits act wt tbl node =
      lnPromoteFirstTwo inits wt (decide (wt = QuantType.QInt8)) tbl node := by
  unfold applyNodePolicy
  rw [hop]
  have c1 : ¬("LayerNormalization" = "MatMul" ∧ wt ∈ Q8_TYPES) :=
    fun hc => absurd hc.1 (by decide)
  rw [if_neg c1, if_pos ⟨rfl, hq8⟩, if_pos hq16]

/-- Claim C6 as amended: for a `LayerNormalization` operation with a narrow
weight target type and some non-parameter input of a wide effective type,
the policy promotes those of the FIRST TWO POSITIONAL inputs that are
parameters to the narrow weight type with matching symmetry, and touches no
other tensor.  In particular the bias — the third positional input — is
never promoted even though it is a parameter (the source's `range(2)` loop
covers positions 0 and 1 only, and position 0 is normally the activation). -/
theorem claim_C6_amended {inits : List (String × InitRec)} {act wt : QuantType}
    {tbl tbl' : OverrideTable} {node : Node} {in0 in1 : String}
    (hop : node.op_type = "LayerNormalization") (hq8 : wt ∈ Q8_TYPES)
    (h0 : node.input[0]? = some in0) (h1 : node.input[1]? = some in1)
    (hne : in0 ≠ in1)
    (hq16 : lnHasQ16Activation inits act tbl node = true)
    (hrun : applyNodePolicy inits act wt tbl node = Except.ok tbl') :
    (∀ u, u ≠ in0 → u ≠ in1 → alookup u tbl' = alookup u tbl) ∧
    (isInit in0 inits = true → alookup in0 tbl = none →
      alookup in0 tbl' = some [{ quant_type := some wt, symmetric := some (decide (wt = QuantType.QInt8)) }]) ∧
    (isInit in1 inits = true → alookup in1 tbl = none →
      alookup in1 tbl' = some [{ quant_type := some wt, symmetric := some (decide (wt = QuantType.QInt8)) }]) ∧
    (isInit in0 inits = false → alookup in0 tbl' = alookup in0 tbl) ∧
    (isInit in1 inits = false → alookup in1 tbl' = alookup in1 tbl) := by
  rw [applyNodePolicy_ln hop hq8 hq16] at hrun
  unfold lnPromoteFirstTwo at hrun
  simp only [h0, h1] at hrun
  split at hrun
  · cases hrun
  · rename_i tbl1 heq0
    have hne' : in1 ≠ in0 := fun he => hne he.symm
    have f1 : ∀ u, u ≠ in0 → alookup u tbl1 = alookup u tbl := by
      intro u hu
      split at heq0
      · exact setWeightType_frame heq0 hu
      · simp only [Except.ok.injEq] at heq0
        subst heq0
        rfl
    have f3 : isInit in0 inits = true → alookup in0 tbl = none →
        alookup in0 tbl1 = some [{ quant_type := some wt, symmetric := some (decide (wt = QuantType.QInt8)) }] := by
      intro hi h0n
      rw [if_pos hi, setWeightType_absent h0n] at heq0
      simp only [Except.ok.injEq] at heq0
      subst heq0
      exact alookup_aset_self _ _ _
    have f5 : isInit in0 inits = false → tbl1 = tbl := by
      intro hi
      rw [if_neg (by simp [hi])] at heq0
      simp only [Except.ok.injEq] at heq0
      exact heq0.symm
    have f2 : ∀ u, u ≠ in1 → alookup u tbl' = alookup u tbl1 := by
      intro u hu
      split at hrun
      · exact setWeightType_frame hrun hu
      · simp only [Except.ok.injEq] at hrun
        subst hrun
        rfl
    have f4 : isInit in1 inits = true → alookup in1 tbl1 = none →
        alookup in1 tbl' = some [{ quant_type := some wt, symmetric := some (decide (wt = QuantType.QInt8)) }] := by
      intro hi h1n
      rw [if_pos hi, setWeightType_absent h1n] at hrun
      simp only [Except.ok.injEq] at hrun
      subst hrun
      exact alookup_aset_self _ _ _
    have f6 : isInit in1 inits = false → tbl' = tbl1 := by
      intro hi
      rw [if_neg (by simp [hi])] at hrun
      simp only [Except.ok.injEq] at hrun
      exact hrun.symm
    refine ⟨?_, ?_, ?_, ?_, ?_⟩
    · intro u hu0 hu1
      rw [f2 u hu1]
      exact f1 u hu0
    · intro hi h0n
      rw [f2 in0 hne]
      exact f3 hi h0n
    · intro hi h1n
      refine f4 hi ?_
      rw [f1 in1 hne']
      exact h1n
    · intro hi
      rw [f2 in0 hne, f5 hi]
    · intro hi
      rw [f6 hi]
      exact f1 in1 hne'

/-- Witness for the amended C6 at the concrete `LayerNormalization` node
with inputs `[x, s, b]`: the parameter `s` at position 1 is promoted and
the tensor `b` is untouched. -/
theorem claim_C6_witness :
    alookup "s" (([("x", [{ quant_type := some QuantType.QInt16 }]), ("s", [{ quant_type := some QuantType.QInt8, symmetric := some (decide (QuantType.QInt8 = QuantType.QInt8)) }])] : OverrideTable)) = some [{ quant_type := some QuantType.QInt8, symmetric := some (decide (QuantType.QInt8 = QuantType.QInt8)) }] ∧
    alookup "b" (([("x", [{ quant_type := some QuantType.QInt16 }]), ("s", [{ quant_type := some QuantType.QInt8, symmetric := some (decide (QuantType.QInt8 = QuantType.QInt8)) }])] : OverrideTable)) = alookup "b" tblLN :=
  ⟨(@claim_C6_amended initsLN QuantType.QUInt8 QuantType.QInt8 tblLN
      ([("x", [{ quant_type := some QuantType.QInt16 }]), ("s", [{ quant_type := some QuantType.QInt8, symmetric := some (decide (QuantType.QInt8 = QuantType.QInt8)) }])] : OverrideTable)
      nodeLN "x" "s"
      rfl (by decide) (by decide) (by decide) (by decide) (by decide)
      (by decide)).2.2.1 (by decide) (by decide),
   (@claim_C6_amended initsLN QuantType.QUInt8 QuantType.QInt8 tblLN
      ([("x", [{ quant_type := some QuantType.QInt16 }]), ("s", [{ quant_type := some QuantType.QInt8, symmetric := some (decide (QuantType.QInt8 = QuantType.QInt8)) }])] : OverrideTable)
      nodeLN "x" "s"
      rfl (by decide) (by decide) (by decide) (by decide) (by decide)
      (by decide)).1 "b" (by decide) (by decide)⟩

/-- Counterexample to C6 as stated: in the `LayerNormalization` node with
inputs `[x, s, b]` (both `s` and `b` parameters, `x` a wide activation),
the "first two parameter inputs" are `s` (scale) and `b` (bias), yet the
policy promotes only `s`; the bias `b` receives no entry at all. -/
theorem claim_C6_counterexample :
    Except.map (fun t => (alookup "s" t, alookup "b" t))
        (applyNodePolicy initsLN QuantType.QUInt8 QuantType.QInt8 tblLN nodeLN) =
      Except.ok (some [{ quant_type := some QuantType.QInt8, symmetric := some true }], none) := by
  decide

theorem recordConsumerRequest_frame {qt : QuantType} {nn : String} {st st' : ReqMap}
    {x : String} (h : recordConsumerRequest qt nn st x = Except.ok st')
    {u : String} (hu : u ≠ x) : alookup u st' = alookup u st := by
  unfold recordConsumerRequest at h
  split at h
  · simp only [Except.ok.injEq] at h
    subst h
    exact alookup_aset_ne hu _ _
  · split at h
    · simp only [Except.ok.injEq] at h
      subst h
      exact alookup_aset_ne hu _ _
    · split at h
      · cases h
      · simp only [Except.ok.injEq] at h
        subst h
        exact alookup_aset_ne hu _ _

theorem recordProducerRequest_frame {qt : QuantType} {tname : String} {st st' : ReqMap}
    (h : recordProducerRequest qt tname st = Except.ok st')
    {u : String} (hu : u ≠ tname) : alookup u st' = alookup u st := by
  unfold recordProducerRequest at h
  split at h
  · simp only [Except.ok.injEq] at h
    subst h
    exact alookup_aset_ne hu _ _
  · split at h
    · cases h
    · simp only [Except.ok.injEq] at h
      subst h
      exact alookup_aset_ne hu _ _

theorem recordConsumerRequests_frame {qt : QuantType} {nn : String}
    {vis : List (String × ValueInfo)} {inits : List (String × InitRec)} {t : String} :
    ∀ {inputs : List String} {st st' : ReqMap},
      recordConsumerRequests qt nn vis inits st inputs = Except.ok st' →
      t ∉ inputs → alookup t st' = alookup t st := by
  intro inputs
  induction inputs with
  | nil =>
    intro st st' h _
    simp only [recordConsumerRequests, Except.ok.injEq] at h
    subst h
    rfl
  | cons x rest ih =>
    intro st st' h hnm
    have hx : t ≠ x := fun he => hnm (he ▸ List.mem_cons_self x rest)
    have hrest : t ∉ rest := fun he => hnm (List.mem_cons_of_mem x he)
    simp only [recordConsumerRequests] at h
    split at h
    · split at h
      · cases h
      · rename_i st1 hstep
        rw [ih h hrest]
        exact recordConsumerRequest_frame hstep hx
    · exact ih h hrest

theorem collectStep_none {act : QuantType} {vis : List (String × ValueInfo)}
    {inits : List (String × InitRec)} {producers : List (String × Node)}
    {st st' : ReqMap} {t tname : String} {ovl : List TensorOverride}
    (h : collectStep act vis inits producers st tname ovl = Except.ok st')
    (ht : alookup t st = none) (hne : t ≠ tname)
    (hinp : ∀ node, alookup tname producers = some node → t ∉ node.input) :
    alookup t st' = none := by
  unfold collectStep at h
  split at h
  · simp only [Except.ok.injEq] at h
    subst h
    exact ht
  · split at h
    · simp only [Except.ok.injEq] at h
      subst h
      exact ht
    · split at h
      · split at h
        · cases h
        · rename_i node heqp
          split at h
          · split at h
            · cases h
            · rename_i st1 hprod
              rw [recordConsumerRequests_frame h (hinp node heqp)]
              rw [recordProducerRequest_frame hprod hne]
              exact ht
          · simp only [Except.ok.injEq] at h
            subst h
            exact ht
      · simp only [Except.ok.injEq] at h
        subst h
        exact ht

theorem collectTypeRequests_none {act : QuantType} {vis : List (String × ValueInfo)}
    {inits : List (String × InitRec)} {producers : List (String × Node)} {t : String} :
    ∀ {tbl : OverrideTable} {st st' : ReqMap},
      collectTypeRequests act vis inits producers st tbl = Except.ok st' →
      alookup t st = none → t ∉ akeys tbl →
      (∀ p ∈ tbl, ∀ node, alookup p.1 producers = some node → t ∉ node.input) →
      alookup t st' = none := by
  intro tbl
  induction tbl with
  | nil =>
    intro st st' h ht _ _
    simp only [collectTypeRequests, Except.ok.injEq] at h
    subst h
    exact ht
  | cons p rest ih =>
    intro st st' h ht hk hinp
    rcases p with ⟨tname, ovl⟩
    rw [akeys_cons, List.mem_cons] at hk
    push_neg at hk
    obtain ⟨hk1, hk2⟩ := hk
    simp only [collectTypeRequests] at h
    split at h
    · cases h
    · rename_i st1 hstep
      refine ih h ?_ hk2 ?_
      · exact collectStep_none hstep ht hk1 (hinp (tname, ovl) (List.mem_cons_self _ _))
      · intro q hq node hn
        exact hinp q (List.mem_cons_of_mem _ hq) node hn

theorem processTypeRequests_none {act : QuantType} {cons : List (String × List Node)}
    {t : String} {reqs : ReqMap} {tbl final : OverrideTable}
    (h : processTypeRequests act cons tbl reqs = Except.ok final)
    (ht : alookup t tbl = none) (hn : alookup t reqs = none) : alookup t final = none := by
  rw [processTypeRequests_frame h ((alookup_eq_none_iff t reqs).mp hn)]
  exact ht

theorem addOutputs_lookup {node : Node} :
    ∀ {outs : List String} {prods prods' : List (String × Node)},
      addOutputs node outs prods = Except.ok prods' →
      ∀ k n, alookup k prods' = some n → alookup k prods = some n ∨ n = node := by
  intro outs
  induction outs with
  | nil =>
    intro prods prods' h k n hk
    simp only [addOutputs, Except.ok.injEq] at h
    subst h
    exact Or.inl hk
  | cons o rest ih =>
    intro prods prods' h k n hk
    simp only [addOutputs] at h
    split at h
    · cases h
    · split at h
      · cases h
      · rcases ih h k n hk with h1 | h1
        · by_cases hko : o = k
          · subst hko
            rw [alookup_aset_self] at h1
            exact Or.inr (Option.some.inj h1).symm
          · rw [alookup_aset_ne (fun he => hko he.symm)] at h1
            exact Or.inl h1
        · exact Or.inr h1

theorem buildMaps_producers :
    ∀ {nodes : List Node} {cons : List (String × List Node)}
      {prods : List (String × Node)}
      {maps : List (String × List Node) × List (String × Node)},
      buildMaps nodes cons prods = Except.ok maps →
      ∀ k n, alookup k maps.2 = some n → alookup k prods = some n ∨ n ∈ nodes := by
  intro nodes
  induction nodes with
  | nil =>
    intro cons prods maps h k n hk
    simp only [buildMaps, Except.ok.injEq] at h
    subst h
    exact Or.inl hk
  | cons node rest ih =>
    intro cons prods maps h k n hk
    simp only [buildMaps] at h
    split at h
    · cases h
    · rename_i prods1 hout
      rcases ih h k n hk with h1 | h1
      · rcases addOutputs_lookup hout k n h1 with h2 | h2
        · exact Or.inl h2
        · exact Or.inr (h2 ▸ List.mem_cons_self node rest)
      · exact Or.inr (List.mem_cons_of_mem node h1)

theorem lnPromoteFirstTwo_frame {inits : List (String × InitRec)} {wt : QuantType}
    {ws : Bool} {tbl tbl' : OverrideTable} {node : Node} {t : String}
    (h : lnPromoteFirstTwo inits wt ws tbl node = Except.ok tbl')
    (hin : t ∉ node.input) : alookup t tbl' = alookup t tbl := by
  unfold lnPromoteFirstTwo at h
  split at h
  · cases h
  · rename_i in0 h0
    have ht0 : t ≠ in0 := fun he => hin (he ▸ List.getElem?_mem h0)
    split at h
    · cases h
    · rename_i tbl1 heq0
      have f1 : alookup t tbl1 = alookup t tbl := by
        split at heq0
        · exact setWeightType_frame heq0 ht0
        · simp only [Except.ok.injEq] at heq0
          subst heq0
          rfl
      split at h
      · cases h
      · rename_i in1 h1
        have ht1 : t ≠ in1 := fun he => hin (he ▸ List.getElem?_mem h1)
        split at h
        · rw [setWeightType_frame h ht1]
          exact f1
        · simp only [Except.ok.injEq] at h
          subst h
          exact f1

theorem applyNodePolicy_frame {inits : List (String × InitRec)} {act wt : QuantType}
    {tbl tbl' : OverrideTable} {node : Node} {t : String}
    (h : applyNodePolicy inits act wt tbl node = Except.ok tbl')
    (hin : t ∉ node.input) (hout : t ∉ node.output) :
    alookup t tbl' = alookup t tbl := by
  unfold applyNodePolicy at h
  split at h
  · -- MatMul branch
    split at h
    · rename_i hcond
      cases hp : (matMulScanInputs inits act tbl node.name node.input).2 with
      | none =>
        rw [hp] at hcond
        simp [truthyStr] at hcond
      | some s =>
        have hp' : (node.input.foldl
            (fun p input_name =>
              if isInit input_name inits = false then
                if getInputActivationQtype tbl input_name node.name act ∈ Q16_TYPES then
                  (some input_name, p.2)
                else p
              else (p.1, some input_name)) ((none, none) : Option String × Option String)).2 = some s := by
          rw [← hp]
          rfl
        have hs : s ∈ node.input := by
          rcases matMulScanFold_snd_mem node.input (none, none) s hp' with h1 | h1
          · cases h1
          · exact h1
        have hts : t ≠ s := fun he => hin (he ▸ hs)
        rw [hp] at h
        simp only [Option.getD_some] at h
        exact setWeightType_frame h hts
    · simp only [Except.ok.injEq] at h
      subst h
      rfl
  · split at h
    · -- LayerNormalization branch
      split at h
      · exact lnPromoteFirstTwo_frame h hin
      · simp only [Except.ok.injEq] at h
        subst h
        rfl
    · split at h
      · -- Sigmoid branch
        split at h
        · cases h
        · rename_i out hO
          have hto : t ≠ out := fun he => hout (he ▸ List.getElem?_mem hO)
          split at h
          · cases h
          · split at h
            · exact setScaleZeroPoint_frame h hto
            · split at h
              · exact setScaleZeroPoint_frame h hto
              · simp only [Except.ok.injEq] at h
                subst h
                rfl
      · split at h
        · -- Tanh branch
          split at h
          · cases h
          · rename_i out hO
            have hto : t ≠ out := fun he => hout (he ▸ List.getElem?_mem hO)
            split at h
            · cases h
            · split at h
              · exact setScaleZeroPoint_frame h hto
              · split at h
                · exact setScaleZeroPoint_frame h hto
                · simp only [Except.ok.injEq] at h
                  subst h
                  rfl
        · simp only [Except.ok.injEq] at h
          subst h
          rfl

theorem applyNodePolicies_frame {inits : List (String × InitRec)} {act wt : QuantType}
    {t : String} :
    ∀ {nodes : List Node} {tbl tbl' : OverrideTable},
      applyNodePolicies inits act wt tbl nodes = Except.ok tbl' →
      (∀ n ∈ nodes, t ∉ n.input) → (∀ n ∈ nodes, t ∉ n.output) →
      alookup t tbl' = alookup t tbl := by
  intro nodes
  induction nodes with
  | nil =>
    intro tbl tbl' h _ _
    simp only [applyNodePolicies, Except.ok.injEq] at h
    subst h
    rfl
  | cons node rest ih =>
    intro tbl tbl' h hin hout
    simp only [applyNodePolicies] at h
    split at h
    · cases h
    · rename_i tbl1 hstep
      rw [ih h (fun n hn => hin n (List.mem_cons_of_mem node hn))
          (fun n hn => hout n (List.mem_cons_of_mem node hn))]
      exact applyNodePolicy_frame hstep (hin node (List.mem_cons_self node rest))
        (hout node (List.mem_cons_self node rest))

/-- Claim C9 as amended: a tensor that appears in no initial override record
and is neither an input nor an output of any operation (hence is untouched
by every policy rule and receives no type request) has no entry in the
resolved table.  The restriction to non-input tensors is necessary: the
resolver DOES create entries for request-receiving tensors absent from the
initial table (see the counterexample). -/
theorem claim_C9_amended {nodes : List Node} {vis : List (String × ValueInfo)}
    {inits : List (String × InitRec)} {act wt : QuantType}
    {init_overrides final : OverrideTable} {add_converts per_channel : Bool} {t : String}
    (hE : alookup t init_overrides = none)
    (hin : ∀ n ∈ nodes, t ∉ n.input)
    (hout : ∀ n ∈ nodes, t ∉ n.output)
    (hrun : getQnnQdqConfigTable nodes vis inits act wt init_overrides add_converts
      per_channel = Except.ok final) :
    alookup t final = none := by
  unfold getQnnQdqConfigTable at hrun
  split at hrun
  · cases hrun
  · split at hrun
    · cases hrun
    · rename_i maps hbuild
      split at hrun
      · cases hrun
      · rename_i tbl1 hstage1
        have ht1 : alookup t tbl1 = none := by
          split at hstage1
          · unfold addQtypeConverts at hstage1
            split at hstage1
            · cases hstage1
            · rename_i reqs hcollect
              have hreqs : alookup t reqs = none := by
                refine collectTypeRequests_none hcollect rfl
                  ((alookup_eq_none_iff t init_overrides).mp hE) ?_
                intro p hp node hn
                rcases buildMaps_producers hbuild p.1 node hn with h1 | h1
                · cases h1
                · exact hin node h1
              exact processTypeRequests_none hstage1 hE hreqs
          · simp only [Except.ok.injEq] at hstage1
            subst hstage1
            exact hE
        rw [applyNodePolicies_frame hrun hin hout]
        exact ht1

/-- Witness for the amended C9: tensor `z` is mentioned nowhere in the
single-node graph and has no entry in the resolved table. -/
theorem claim_C9_witness :
    (getQnnQdqConfigTable [node9] vis9 [] QuantType.QUInt8 QuantType.QUInt8 tbl9
        true false = Except.ok [("o", [{ quant_type := some QuantType.QInt16, convert := some ⟨QuantType.QUInt8, none⟩ }]), ("x", [{ quant_type := some QuantType.QUInt8, convert := some ⟨QuantType.QInt16, some {"n1"}⟩ }])]) ∧
    alookup "z" (([("o", [{ quant_type := some QuantType.QInt16, convert := some ⟨QuantType.QUInt8, none⟩ }]), ("x", [{ quant_type := some QuantType.QUInt8, convert := some ⟨QuantType.QInt16, some {"n1"}⟩ }])] : OverrideTable)) = none :=
  ⟨by decide,
   @claim_C9_amended [node9] vis9 [] QuantType.QUInt8 QuantType.QUInt8 tbl9
     ([("o", [{ quant_type := some QuantType.QInt16, convert := some ⟨QuantType.QUInt8, none⟩ }]), ("x", [{ quant_type := some QuantType.QUInt8, convert := some ⟨QuantType.QInt16, some {"n1"}⟩ }])] : OverrideTable)
     true false "z"
     (by decide) (by decide) (by decide) (by decide)⟩

/-- Counterexample to C9 as stated: tensor `x` appears in no initial
override record and is not modified by any operator policy rule (the only
node is a `Relu`), yet the resolver creates an entry for it: `x` receives a
consumer-side `QInt16` request from `n1` (whose output `o` is overridden),
and the consumer-only case inserts a `convert` entry keyed by `x`. -/
theorem claim_C9_counterexample :
    Except.map (alookup "x")
        (getQnnQdqConfigTable [node9] vis9 [] QuantType.QUInt8 QuantType.QUInt8 tbl9
          true false) =
      Except.ok (some [{ quant_type := some QuantType.QUInt8, convert := some ⟨QuantType.QInt16, some {"n1"}⟩ }]) := by
  decide

theorem consType_some {x : String} {st : ReqMap} {T : QuantType}
    (h : consType x st = some T) :
    ∃ req names, alookup x st = some req ∧ req.consumers = some (T, names) := by
  unfold consType at h
  cases hl : alookup x st with
  | none =>
    rw [hl] at h
    simp at h
  | some req =>
    rw [hl] at h
    replace h : Option.map Prod.fst req.consumers = some T := h
    cases hc : req.consumers with
    | none =>
      rw [hc] at h
      cases h
    | some p =>
      obtain ⟨p1, p2⟩ := p
      rw [hc] at h
      simp only [Option.map_some', Option.some.injEq] at h
      subst h
      exact ⟨req, p2, rfl, hc⟩

theorem recordConsumerRequest_error {qt : QuantType} {nn : String} {st : ReqMap}
    {x : String} {e : QErr} (h : recordConsumerRequest qt nn st x = Except.error e) :
    e = QErr.consumerConflict x := by
  unfold recordConsumerRequest at h
  split at h
  · cases h
  · split at h
    · cases h
    · split at h
      · simp only [Except.error.injEq] at h
        exact h.symm
      · cases h

theorem recordConsumerRequest_consType {qt : QuantType} {nn : String} {st st' : ReqMap}
    {x : String} (h : recordConsumerRequest qt nn st x = Except.ok st') :
    consType x st' = some qt := by
  unfold recordConsumerRequest at h
  split at h
  · simp only [Except.ok.injEq] at h
    subst h
    unfold consType
    rw [alookup_aset_self]
    rfl
  · split at h
    · simp only [Except.ok.injEq] at h
      subst h
      unfold consType
      rw [alookup_aset_self]
      rfl
    · split at h
      · cases h
      · rename_i hcond
        simp only [Except.ok.injEq] at h
        subst h
        unfold consType
        rw [alookup_aset_self]
        have hceq := by simpa using hcond
        simp [hceq]

theorem recordConsumerRequest_conflict {qt : QuantType} {nn : String} {st : ReqMap}
    {x : String} {T : QuantType} (hT : consType x st = some T) (hne : T ≠ qt) :
    recordConsumerRequest qt nn st x = Except.error (QErr.consumerConflict x) := by
  obtain ⟨req, names, hl, hc⟩ := consType_some hT
  unfold recordConsumerRequest
  simp only [hl, hc]
  rw [if_pos hne]

theorem recordConsumerRequest_consType_pres {qt : QuantType} {nn : String}
    {st st' : ReqMap} {x : String} (h : recordConsumerRequest qt nn st x = Except.ok st')
    {y : String} {T : QuantType} (hy : consType y st = some T) :
    consType y st' = some T := by
  by_cases hxy : y = x
  · subst hxy
    have hq : T = qt := by
      by_contra hne
      rw [recordConsumerRequest_conflict hy hne] at h
      cases h
    rw [recordConsumerRequest_consType h, hq]
  · unfold consType at hy ⊢
    rw [recordConsumerRequest_frame h hxy]
    exact hy

theorem recordConsumerRequest_prod_pres {qt : QuantType} {nn : String}
    {st st' : ReqMap} {x : String} (h : recordConsumerRequest qt nn st x = Except.ok st')
    (y : String) : prodTypeOf y st' = prodTypeOf y st := by
  by_cases hxy : y = x
  · subst hxy
    unfold recordConsumerRequest at h
    split at h
    · rename_i hl
      simp only [Except.ok.injEq] at h
      subst h
      unfold prodTypeOf
      rw [alookup_aset_self, hl]
      rfl
    · rename_i req hl
      split at h
      · simp only [Except.ok.injEq] at h
        subst h
        unfold prodTypeOf
        rw [alookup_aset_self, hl]
        rfl
      · split at h
        · cases h
        · simp only [Except.ok.injEq] at h
          subst h
          unfold prodTypeOf
          rw [alookup_aset_self, hl]
          rfl
  · unfold prodTypeOf
    rw [recordConsumerRequest_frame h hxy]

theorem recordConsumerRequests_error {qt : QuantType} {nn : String}
    {vis : List (String × ValueInfo)} {inits : List (String × InitRec)} :
    ∀ {inputs : List String} {st : ReqMap} {e : QErr},
      recordConsumerRequests qt nn vis inits st inputs = Except.error e →
      ∃ s, e = QErr.consumerConflict s := by
  intro inputs
  induction inputs with
  | nil =>
    intro st e h
    cases h
  | cons x rest ih =>
    intro st e h
    simp only [recordConsumerRequests] at h
    split at h
    · split at h
      · rename_i e0 hrc
        simp only [Except.error.injEq] at h
        subst h
        exact ⟨x, recordConsumerRequest_error hrc⟩
      · exact ih h
    · exact ih h

theorem recordConsumerRequests_consType_pres {qt : QuantType} {nn : String}
    {vis : List (String × ValueInfo)} {inits : List (String × InitRec)} :
    ∀ {inputs : List String} {st st' : ReqMap},
      recordConsumerRequests qt nn vis inits st inputs = Except.ok st' →
      ∀ {y : String} {T : QuantType}, consType y st = some T → consType y st' = some T := by
  intro inputs
  induction inputs with
  | nil =>
    intro st st' h y T hy
    simp only [recordConsumerRequests, Except.ok.injEq] at h
    subst h
    exact hy
  | cons x rest ih =>
    intro st st' h y T hy
    simp only [recordConsumerRequests] at h
    split at h
    · split at h
      · cases h
      · rename_i st1 hrc
        exact ih h (recordConsumerRequest_consType_pres hrc hy)
    · exact ih h hy

theorem recordConsumerRequests_prod_pres {qt : QuantType} {nn : String}
    {vis : List (String × ValueInfo)} {inits : List (String × InitRec)} :
    ∀ {inputs : List String} {st st' : ReqMap},
      recordConsumerRequests qt nn vis inits st inputs = Except.ok st' →
      ∀ y, prodTypeOf y st' = prodTypeOf y st := by
  intro inputs
  induction inputs with
  | nil =>
    intro st st' h y
    simp only [recordConsumerRequests, Except.ok.injEq] at h
    subst h
    rfl
  | cons x rest ih =>
    intro st st' h y
    simp only [recordConsumerRequests] at h
    split at h
    · split at h
      · cases h
      · rename_i st1 hrc
        rw [ih h y]
        exact recordConsumerRequest_prod_pres hrc y
    · exact ih h y

theorem recordConsumerRequests_establish {qt : QuantType} {nn : String}
    {vis : List (String × ValueInfo)} {inits : List (String × InitRec)} {x : String}
    (hx1 : x ≠ "") (hx2 : isInit x inits = false)
    (hx3 : isTensorQuantizable x vis inits = true) :
    ∀ {inputs : List String} {st st' : ReqMap}, x ∈ inputs →
      recordConsumerRequests qt nn vis inits st inputs = Except.ok st' →
      consType x st' = some qt := by
  intro inputs
  induction inputs with
  | nil =>
    intro st st' hmem _
    cases hmem
  | cons y rest ih =>
    intro st st' hmem h
    simp only [recordConsumerRequests] at h
    rcases List.mem_cons.mp hmem with heq | hmem'
    · subst heq
      rw [if_pos ⟨hx1, hx2, hx3⟩] at h
      split at h
      · cases h
      · rename_i st1 hrc
        by_cases hxr : x ∈ rest
        · exact ih hxr h
        · have hfr : consType x st' = consType x st1 := by
            unfold consType
            rw [recordConsumerRequests_frame h hxr]
          rw [hfr]
          exact recordConsumerRequest_consType hrc
    · split at h
      · split at h
        · cases h
        · exact ih hmem' h
      · exact ih hmem' h

theorem recordConsumerRequests_conflict {qt : QuantType} {nn : String}
    {vis : List (String × ValueInfo)} {inits : List (String × InitRec)} {x : String}
    {T : QuantType}
    (hx1 : x ≠ "") (hx2 : isInit x inits = false)
    (hx3 : isTensorQuantizable x vis inits = true) (hTq : T ≠ qt) :
    ∀ {inputs : List String} {st : ReqMap}, x ∈ inputs → consType x st = some T →
      ∃ s, recordConsumerRequests qt nn vis inits st inputs =
        Except.error (QErr.consumerConflict s) := by
  intro inputs
  induction inputs with
  | nil =>
    intro st hmem _
    cases hmem
  | cons y rest ih =>
    intro st hmem hT
    rcases List.mem_cons.mp hmem with heq | hmem'
    · subst heq
      refine ⟨x, ?_⟩
      simp only [recordConsumerRequests]
      rw [if_pos ⟨hx1, hx2, hx3⟩, recordConsumerRequest_conflict hT hTq]
    · by_cases hq : y ≠ "" ∧ isInit y inits = false ∧ isTensorQuantizable y vis inits = true
      · cases hrc : recordConsumerRequest qt nn st y with
        | error e =>
          refine ⟨y, ?_⟩
          simp only [recordConsumerRequests]
          rw [if_pos hq, hrc, recordConsumerRequest_error hrc]
        | ok st1 =>
          obtain ⟨s, hs⟩ := ih hmem' (recordConsumerRequest_consType_pres hrc hT)
          refine ⟨s, ?_⟩
          simp only [recordConsumerRequests]
          rw [if_pos hq, hrc]
          exact hs
      · obtain ⟨s, hs⟩ := ih hmem' hT
        refine ⟨s, ?_⟩
        simp only [recordConsumerRequests]
        rw [if_neg hq]
        exact hs

theorem recordProducerRequest_ok {qt : QuantType} {tname : String} {st : ReqMap}
    (hp : prodTypeOf tname st = none) :
    ∃ st', recordProducerRequest qt tname st = Except.ok st' := by
  unfold recordProducerRequest
  cases hl : alookup tname st with
  | none => exact ⟨_, rfl⟩
  | some req =>
    have hpr : req.producer_type = none := by
      unfold prodTypeOf at hp
      rw [hl] at hp
      exact hp
    refine ⟨aset tname { req with producer_type := some qt } st, ?_⟩
    exact if_neg (by simp [hpr])

theorem recordProducerRequest_consType_pres {qt : QuantType} {tname : String}
    {st st' : ReqMap} (h : recordProducerRequest qt tname st = Except.ok st')
    {y : String} {T : QuantType} (hy : consType y st = some T) :
    consType y st' = some T := by
  by_cases hyt : y = tname
  · subst hyt
    unfold recordProducerRequest at h
    split at h
    · rename_i hl
      unfold consType at hy
      rw [hl] at hy
      cases hy
    · rename_i req hl
      split at h
      · cases h
      · simp only [Except.ok.injEq] at h
        subst h
        unfold consType at hy ⊢
        rw [alookup_aset_self]
        rw [hl] at hy
        exact hy
  · unfold consType at hy ⊢
    rw [recordProducerRequest_frame h hyt]
    exact hy

theorem collectStep_consType_pres {act : QuantType} {vis : List (String × ValueInfo)}
    {inits : List (String × InitRec)} {producers : List (String × Node)}
    {st st' : ReqMap} {tname : String} {ovl : List TensorOverride}
    (h : collectStep act vis inits producers st tname ovl = Except.ok st')
    {y : String} {T : QuantType} (hy : consType y st = some T) :
    consType y st' = some T := by
  unfold collectStep at h
  split at h
  · simp only [Except.ok.injEq] at h
    subst h
    exact hy
  · split at h
    · simp only [Except.ok.injEq] at h
      subst h
      exact hy
    · split at h
      · split at h
        · cases h
        · split at h
          · split at h
            · cases h
            · rename_i st1 hprodr
              exact recordConsumerRequests_consType_pres h
                (recordProducerRequest_consType_pres hprodr hy)
          · simp only [Except.ok.injEq] at h
            subst h
            exact hy
      · simp only [Except.ok.injEq] at h
        subst h
        exact hy

theorem collectStep_prod_frame {act : QuantType} {vis : List (String × ValueInfo)}
    {inits : List (String × InitRec)} {producers : List (String × Node)}
    {st st' : ReqMap} {tname : String} {ovl : List TensorOverride}
    (h : collectStep act vis inits producers st tname ovl = Except.ok st')
    {y : String} (hy : y ≠ tname) : prodTypeOf y st' = prodTypeOf y st := by
  unfold collectStep at h
  split at h
  · simp only [Except.ok.injEq] at h
    subst h
    rfl
  · split at h
    · simp only [Except.ok.injEq] at h
      subst h
      rfl
    · split at h
      · split at h
        · cases h
        · split at h
          · split at h
            · cases h
            · rename_i st1 hprodr
              rw [recordConsumerRequests_prod_pres h y]
              unfold prodTypeOf
              rw [recordProducerRequest_frame hprodr hy]
          · simp only [Except.ok.injEq] at h
            subst h
            rfl
      · simp only [Except.ok.injEq] at h
        subst h
        rfl

theorem collectStep_ok_or_conflict {act : QuantType} {vis : List (String × ValueInfo)}
    {inits : List (String × InitRec)} {producers : List (String × Node)}
    {st : ReqMap} {tname : String} {ovl : List TensorOverride}
    (hpOk : isTensorQuantizable tname vis inits = true → isInit tname inits = false →
      ovl.length = 1 → (alookup tname producers).isSome)
    (hprodNone : prodTypeOf tname st = none) :
    (∃ st', collectStep act vis inits producers st tname ovl = Except.ok st') ∨
    (∃ s, collectStep act vis inits producers st tname ovl =
      Except.error (QErr.consumerConflict s)) := by
  cases hres : collectStep act vis inits producers st tname ovl with
  | ok st' => exact Or.inl ⟨st', rfl⟩
  | error e =>
    refine Or.inr ?_
    unfold collectStep at hres
    split at hres
    · cases hres
    · split at hres
      · cases hres
      · rename_i hq hi
        split at hres
        · rename_i ov
          split at hres
          · rename_i hnone
            have := hpOk (by simpa using hq) (by simpa using hi) rfl
            rw [hnone] at this
            cases this
          · split at hres
            · split at hres
              · rename_i st1 e0 hprodr
                obtain ⟨st2, h2⟩ :=
                  @recordProducerRequest_ok (ov.quant_type.getD act) _ _ hprodNone
                rw [h2] at hprodr
                cases hprodr
              · rename_i st1 hprodr
                obtain ⟨s, hs⟩ := recordConsumerRequests_error hres
                exact ⟨s, by rw [hs]⟩
            · cases hres
        · cases hres

theorem collectStep_establish {act : QuantType} {vis : List (String × ValueInfo)}
    {inits : List (String × InitRec)} {producers : List (String × Node)}
    {st st' : ReqMap} {tname : String} {ovl : List TensorOverride} {ov : TensorOverride}
    {node : Node} {x : String}
    (hovl : ovl = [ov])
    (hq : isTensorQuantizable tname vis inits = true)
    (hi : isInit tname inits = false)
    (hprod : alookup tname producers = some node)
    (hcond : ov.quant_type.getD act ≠ act ∧ ov.convert = none)
    (hx : x ∈ node.input) (hx1 : x ≠ "") (hx2 : isInit x inits = false)
    (hx3 : isTensorQuantizable x vis inits = true)
    (h : collectStep act vis inits producers st tname ovl = Except.ok st') :
    consType x st' = some (ov.quant_type.getD act) := by
  unfold collectStep at h
  split at h
  · rename_i hq'
    rw [hq] at hq'
    cases hq'
  · split at h
    · rename_i hi'
      rw [hi] at hi'
      cases hi'
    · split at h
      · rename_i override
        have hoveq : override = ov := by
          injection hovl
        subst hoveq
        split at h
        · cases h
        · rename_i node' hprod'
          rw [hprod] at hprod'
          injection hprod' with hnode
          subst hnode
          rw [if_pos hcond] at h
          split at h
          · cases h
          · exact recordConsumerRequests_establish hx1 hx2 hx3 hx h
      · rename_i hcf
        exact (hcf ov hovl).elim

theorem collectStep_conflict {act : QuantType} {vis : List (String × ValueInfo)}
    {inits : List (String × InitRec)} {producers : List (String × Node)}
    {st : ReqMap} {tname : String} {ovl : List TensorOverride} {ov : TensorOverride}
    {node : Node} {x : String} {T : QuantType}
    (hovl : ovl = [ov])
    (hq : isTensorQuantizable tname vis inits = true)
    (hi : isInit tname inits = false)
    (hprod : alookup tname producers = some node)
    (hcond : ov.quant_type.getD act ≠ act ∧ ov.convert = none)
    (hx : x ∈ node.input) (hx1 : x ≠ "") (hx2 : isInit x inits = false)
    (hx3 : isTensorQuantizable x vis inits = true)
    (hT : consType x st = some T) (hTne : T ≠ ov.quant_type.getD act)
    (hprodNone : prodTypeOf tname st = none) :
    ∃ s, collectStep act vis inits producers st tname ovl =
      Except.error (QErr.consumerConflict s) := by
  subst hovl
  obtain ⟨st1, hrp⟩ := @recordProducerRequest_ok (ov.quant_type.getD act) _ _ hprodNone
  have hT1 : consType x st1 = some T := recordProducerRequest_consType_pres hrp hT
  obtain ⟨s, hs⟩ := @recordConsumerRequests_conflict _ node.name _ _ _ _
    hx1 hx2 hx3 hTne _ _ hx hT1
  refine ⟨s, ?_⟩
  unfold collectStep
  rw [if_neg (by simp [hq]), if_neg (by simp [hi])]
  simp only [hprod]
  rw [if_pos hcond]
  simp only [hrp]
  exact hs

theorem collectFold_conflict {act : QuantType} {vis : List (String × ValueInfo)}
    {inits : List (String × InitRec)} {producers : List (String × Node)}
    {o2 : String} {ov2 : TensorOverride} {n2 : Node} {x : String} {T1 : QuantType}
    (hq2 : isTensorQuantizable o2 vis inits = true)
    (hi2 : isInit o2 inits = false)
    (hp2 : alookup o2 producers = some n2)
    (hcond2 : ov2.quant_type.getD act ≠ act ∧ ov2.convert = none)
    (hx : x ∈ n2.input) (hx1 : x ≠ "") (hx2i : isInit x inits = false)
    (hx3 : isTensorQuantizable x vis inits = true)
    (hTne : T1 ≠ ov2.quant_type.getD act) :
    ∀ {l : OverrideTable} {st : ReqMap},
      (akeys l).Nodup →
      (∀ p ∈ l, isTensorQuantizable p.1 vis inits = true → isInit p.1 inits = false →
        p.2.length = 1 → (alookup p.1 producers).isSome) →
      (∀ p ∈ l, prodTypeOf p.1 st = none) →
      (o2, [ov2]) ∈ l →
      consType x st = some T1 →
      ∃ s, collectTypeRequests act vis inits producers st l =
        Except.error (QErr.consumerConflict s) := by
  intro l
  induction l with
  | nil =>
    intro st _ _ _ hmem _
    cases hmem
  | cons p rest ih =>
    intro st hnd hpok hpn hmem hT
    rcases p with ⟨tname, ovl⟩
    rw [akeys_cons, List.nodup_cons] at hnd
    obtain ⟨hnotin, hnd_rest⟩ := hnd
    rcases List.mem_cons.mp hmem with heq | hmem'
    · injection heq with h1 h2
      subst h1
      subst h2
      obtain ⟨s, hs⟩ := @collectStep_conflict act vis inits producers st o2 [ov2] ov2
        n2 x T1 rfl hq2 hi2 hp2 hcond2 hx hx1
        hx2i hx3 hT hTne (hpn (o2, [ov2]) (List.mem_cons_self _ _))
      refine ⟨s, ?_⟩
      simp only [collectTypeRequests, hs]
    · have hstep := @collectStep_ok_or_conflict act vis inits producers st tname ovl
        (fun a b c => hpok (tname, ovl) (List.mem_cons_self _ _) a b c)
        (hpn (tname, ovl) (List.mem_cons_self _ _))
      rcases hstep with ⟨st1, hok⟩ | ⟨s, herr⟩
      · have hT1 : consType x st1 = some T1 := collectStep_consType_pres hok hT
        have hpn1 : ∀ q ∈ rest, prodTypeOf q.1 st1 = none := by
          intro q hq
          have hqt : q.1 ≠ tname := by
            intro he
            have hmq := mem_akeys_of_mem hq
            rw [he] at hmq
            exact hnotin hmq
          rw [collectStep_prod_frame hok hqt]
          exact hpn q (List.mem_cons_of_mem _ hq)
        obtain ⟨s, hs⟩ := ih hnd_rest (fun q hq => hpok q (List.mem_cons_of_mem _ hq))
          hpn1 hmem' hT1
        refine ⟨s, ?_⟩
        simp only [collectTypeRequests, hok]
        exact hs
      · refine ⟨s, ?_⟩
        simp only [collectTypeRequests, herr]

theorem collectFold_two_requests_conflict {act : QuantType}
    {vis : List (String × ValueInfo)} {inits : List (String × InitRec)}
    {producers : List (String × Node)}
    {o1 o2 : String} {ov1 ov2 : TensorOverride} {n1 n2 : Node} {x : String}
    (hq1 : isTensorQuantizable o1 vis inits = true) (hi1 : isInit o1 inits = false)
    (hp1 : alookup o1 producers = some n1)
    (hcond1 : ov1.quant_type.getD act ≠ act ∧ ov1.convert = none)
    (hx1m : x ∈ n1.input)
    (hq2 : isTensorQuantizable o2 vis inits = true) (hi2 : isInit o2 inits = false)
    (hp2 : alookup o2 producers = some n2)
    (hcond2 : ov2.quant_type.getD act ≠ act ∧ ov2.convert = none)
    (hx2m : x ∈ n2.input)
    (hxe : x ≠ "") (hxi : isInit x inits = false)
    (hxq : isTensorQuantizable x vis inits = true)
    (hoo : o1 ≠ o2)
    (hTT : ov1.quant_type.getD act ≠ ov2.quant_type.getD act) :
    ∀ {l : OverrideTable} {st : ReqMap},
      (akeys l).Nodup →
      (∀ p ∈ l, isTensorQuantizable p.1 vis inits = true → isInit p.1 inits = false →
        p.2.length = 1 → (alookup p.1 producers).isSome) →
      (∀ p ∈ l, prodTypeOf p.1 st = none) →
      (o1, [ov1]) ∈ l → (o2, [ov2]) ∈ l →
      ∃ s, collectTypeRequests act vis inits producers st l =
        Except.error (QErr.consumerConflict s) := by
  intro l
  induction l with
  | nil =>
    intro st _ _ _ hmem _
    cases hmem
  | cons p rest ih =>
    intro st hnd hpok hpn hm1 hm2
    rcases p with ⟨tname, ovl⟩
    have hndc := hnd
    rw [akeys_cons, List.nodup_cons] at hndc
    obtain ⟨hnotin, hnd_rest⟩ := hndc
    rcases List.mem_cons.mp hm1 with heq1 | hm1'
    · injection heq1 with h1 h2
      subst h1
      subst h2
      have hm2' : (o2, [ov2]) ∈ rest := by
        rcases List.mem_cons.mp hm2 with heq2 | hm2'
        · injection heq2 with h3 _
          exact absurd h3.symm hoo
        · exact hm2'
      have hstep := @collectStep_ok_or_conflict act vis inits producers st o1 [ov1]
        (fun a b c => hpok (o1, [ov1]) (List.mem_cons_self _ _) a b c)
        (hpn (o1, [ov1]) (List.mem_cons_self _ _))
      rcases hstep with ⟨st1, hok⟩ | ⟨s, herr⟩
      · have hT1 : consType x st1 = some (ov1.quant_type.getD act) :=
          collectStep_establish rfl hq1 hi1 hp1 hcond1 hx1m hxe hxi hxq hok
        have hpn1 : ∀ q ∈ rest, prodTypeOf q.1 st1 = none := by
          intro q hq
          have hqt : q.1 ≠ o1 := by
            intro he
            have hmq := mem_akeys_of_mem hq
            rw [he] at hmq
            exact hnotin hmq
          rw [collectStep_prod_frame hok hqt]
          exact hpn q (List.mem_cons_of_mem _ hq)
        obtain ⟨s, hs⟩ := collectFold_conflict hq2 hi2 hp2 hcond2 hx2m hxe hxi hxq hTT
          hnd_rest (fun q hq => hpok q (List.mem_cons_of_mem _ hq)) hpn1 hm2' hT1
        refine ⟨s, ?_⟩
        simp only [collectTypeRequests, hok]
        exact hs
      · refine ⟨s, ?_⟩
        simp only [collectTypeRequests, herr]
    · rcases List.mem_cons.mp hm2 with heq2 | hm2'
      · injection heq2 with h1 h2
        subst h1
        subst h2
        have hstep := @collectStep_ok_or_conflict act vis inits producers st o2 [ov2]
          (fun a b c => hpok (o2, [ov2]) (List.mem_cons_self _ _) a b c)
          (hpn (o2, [ov2]) (List.mem_cons_self _ _))
        rcases hstep with ⟨st1, hok⟩ | ⟨s, herr⟩
        · have hT1 : consType x st1 = some (ov2.quant_type.getD act) :=
            collectStep_establish rfl hq2 hi2 hp2 hcond2 hx2m hxe hxi hxq hok
          have hpn1 : ∀ q ∈ rest, prodTypeOf q.1 st1 = none := by
            intro q hq
            have hqt : q.1 ≠ o2 := by
              intro he
              have hmq := mem_akeys_of_mem hq
              rw [he] at hmq
              exact hnotin hmq
            rw [collectStep_prod_frame hok hqt]
            exact hpn q (List.mem_cons_of_mem _ hq)
          obtain ⟨s, hs⟩ := collectFold_conflict hq1 hi1 hp1 hcond1 hx1m hxe hxi hxq
            (fun he => hTT he.symm)
            hnd_rest (fun q hq => hpok q (List.mem_cons_of_mem _ hq)) hpn1 hm1' hT1
          refine ⟨s, ?_⟩
          simp only [collectTypeRequests, hok]
          exact hs
        · refine ⟨s, ?_⟩
          simp only [collectTypeRequests, herr]
      · have hstep := @collectStep_ok_or_conflict act vis inits producers st tname ovl
          (fun a b c => hpok (tname, ovl) (List.mem_cons_self _ _) a b c)
          (hpn (tname, ovl) (List.mem_cons_self _ _))
        rcases hstep with ⟨st1, hok⟩ | ⟨s, herr⟩
        · have hpn1 : ∀ q ∈ rest, prodTypeOf q.1 st1 = none := by
            intro q hq
            have hqt : q.1 ≠ tname := by
              intro he
              have hmq := mem_akeys_of_mem hq
              rw [he] at hmq
              exact hnotin hmq
            rw [collectStep_prod_frame hok hqt]
            exact hpn q (List.mem_cons_of_mem _ hq)
          obtain ⟨s, hs⟩ := ih hnd_rest (fun q hq => hpok q (List.mem_cons_of_mem _ hq))
            hpn1 hm1' hm2'
          refine ⟨s, ?_⟩
          simp only [collectTypeRequests, hok]
          exact hs
        · refine ⟨s, ?_⟩
          simp only [collectTypeRequests, herr]

/-- Claim C2: whenever two producing operations `n1`, `n2` share a
quantizable, non-initializer input `x` and their overridden output tensors
`o1`, `o2` carry single-record overrides of two different types (each
different from the activation type, with no existing `convert`), the
resolver raises a consumer-conflict `ValueError`.  The two override entries
are located by list membership only, so the theorem covers every scan order
of the override table: conflict detection does not depend on which request
is recorded first. -/
theorem claim_C2 {tbl : OverrideTable} {act : QuantType}
    {vis : List (String × ValueInfo)} {inits : List (String × InitRec)}
    {producers : List (String × Node)} {consumers : List (String × List Node)}
    {o1 o2 x : String} {ov1 ov2 : TensorOverride} {n1 n2 : Node}
    (hnodup : (akeys tbl).Nodup)
    (hpok : ∀ p ∈ tbl, isTensorQuantizable p.1 vis inits = true →
      isInit p.1 inits = false → p.2.length = 1 → (alookup p.1 producers).isSome)
    (hm1 : (o1, [ov1]) ∈ tbl) (hm2 : (o2, [ov2]) ∈ tbl)
    (hq1 : isTensorQuantizable o1 vis inits = true) (hi1 : isInit o1 inits = false)
    (hq2 : isTensorQuantizable o2 vis inits = true) (hi2 : isInit o2 inits = false)
    (hp1 : alookup o1 producers = some n1) (hp2 : alookup o2 producers = some n2)
    (hc1 : ov1.quant_type.getD act ≠ act) (hv1 : ov1.convert = none)
    (hc2 : ov2.quant_type.getD act ≠ act) (hv2 : ov2.convert = none)
    (hx1m : x ∈ n1.input) (hx2m : x ∈ n2.input)
    (hxe : x ≠ "") (hxi : isInit x inits = false)
    (hxq : isTensorQuantizable x vis inits = true)
    (hoo : o1 ≠ o2)
    (hTT : ov1.quant_type.getD act ≠ ov2.quant_type.getD act) :
    isConsumerConflict (addQtypeConverts tbl act vis inits producers consumers) = true := by
  obtain ⟨s, hs⟩ := @collectFold_two_requests_conflict act vis inits producers
    o1 o2 ov1 ov2 n1 n2 x
    hq1 hi1 hp1 ⟨hc1, hv1⟩ hx1m
    hq2 hi2 hp2 ⟨hc2, hv2⟩ hx2m hxe hxi hxq hoo hTT
    tbl ([] : ReqMap) hnodup hpok (fun p _ => rfl) hm1 hm2
  unfold addQtypeConverts
  rw [hs]
  rfl

/-- Witness for C2: operations `P2 : x → o1` and `Q2 : x → o2` with
overrides `o1 : QInt16`, `o2 : QUInt16` collide on their shared input `x`. -/
theorem claim_C2_witness :
    isConsumerConflict (addQtypeConverts tbl2 QuantType.QUInt8 vis2 [] producers2 []) =
      true :=
  @claim_C2 tbl2 QuantType.QUInt8 vis2 [] producers2 [] "o1" "o2" "x"
    { quant_type := some QuantType.QInt16 }
    { quant_type := some QuantType.QUInt16 }
    node2P node2Q
    (by decide) (by decide) (by decide) (by decide) (by decide) (by decide)
    (by decide) (by decide) (by decide) (by decide) (by decide) (by decide)
    (by decide) (by decide) (by decide) (by decide) (by decide) (by decide)
    (by decide) (by decide) (by decide)
